import Mathlib

/-!
Verification development for the YouTrack dashboard's period-resolution and
issue-aggregation core (`period_utils.py`, `youtrack_queries.py`).

The Python code is shallowly embedded: dates are triples of integers in the
proleptic Gregorian calendar (the model of `datetime.date`), dictionaries are
association lists with Python's insertion-order update semantics, generators
become folds over explicit input lists, HTTP calls become oracle parameters,
and raised exceptions become `Except` results.
-/

set_option maxHeartbeats 1600000
set_option maxRecDepth 4000

/-- Model of Python `datetime.date`: a year/month/day triple.  Python's
constructor range checks are not modelled; validity is tracked by `ValidDate`. -/
structure PyDate where
  year : Int
  month : Int
  day : Int
deriving DecidableEq, Repr

/-- Gregorian leap-year rule, as used by Python's `datetime`/`calendar`. -/
def isLeap (y : Int) : Bool :=
  y % 4 = 0 && (y % 100 != 0 || y % 400 = 0)

/-- Number of days of month `m` of year `y` in the Gregorian calendar
(Python `calendar.monthrange(y, m)[1]`). -/
def daysInMonth (y m : Int) : Int :=
  if m = 2 then (if isLeap y then 29 else 28)
  else if m = 4 ∨ m = 6 ∨ m = 9 ∨ m = 11 then 30
  else 31

/-- The date triple denotes an actual calendar date (`datetime.date` invariant). -/
def ValidDate (d : PyDate) : Prop :=
  1 ≤ d.year ∧ 1 ≤ d.month ∧ d.month ≤ 12 ∧ 1 ≤ d.day ∧ d.day ≤ daysInMonth d.year d.month

instance (d : PyDate) : Decidable (ValidDate d) := by
  unfold ValidDate; infer_instance

/-- Chronological order on dates (lexicographic on year, month, day). -/
def dateLe (a b : PyDate) : Prop :=
  a.year < b.year ∨ (a.year = b.year ∧ (a.month < b.month ∨ (a.month = b.month ∧ a.day ≤ b.day)))

instance (a b : PyDate) : Decidable (dateLe a b) := by
  unfold dateLe; infer_instance

/-- Models `_first_day_of_month`: `d.replace(day=1)`. -/
def first_day_of_month (d : PyDate) : PyDate := { d with day := 1 }

/-- Models `d - timedelta(days=1)` on valid dates. -/
def predDay (d : PyDate) : PyDate :=
  if 1 < d.day then { d with day := d.day - 1 }
  else if 1 < d.month then ⟨d.year, d.month - 1, daysInMonth d.year (d.month - 1)⟩
  else ⟨d.year - 1, 12, 31⟩

/-- Models `_last_day_of_month`: first day of the next month minus one day. -/
def last_day_of_month (d : PyDate) : PyDate :=
  if d.month = 12 then predDay ⟨d.year + 1, 1, 1⟩
  else predDay ⟨d.year, d.month + 1, 1⟩

/-- `config.PERIOD_KEYS`. -/
def PERIOD_KEYS : List String :=
  ["current_month", "previous_month", "last_6_months", "last_1_year"]

/-- Python's `str` rendering of the `PERIOD_KEYS` tuple, as interpolated into
the `ValueError` message. -/
def periodKeysStr : String :=
  "(\x27current_month\x27, \x27previous_month\x27, \x27last_6_months\x27, \x27last_1_year\x27)"

/-- The `ValueError` message raised by `get_period_range` for an unknown key:
`f"Unknown period key: {period_key!r}. Expected one of {PERIOD_KEYS}"`. -/
def periodErrorMsg (k : String) : String :=
  "Unknown period key: \x27" ++ k ++ "\x27. Expected one of " ++ periodKeysStr

/-- Models `get_period_range(period_key, today)`: resolve a period key into an
inclusive `(start, end)` date range; a raised `ValueError` becomes `.error`. -/
def get_period_range (period_key : String) (today : PyDate) : Except String (PyDate × PyDate) :=
  if period_key = "current_month" then
    .ok (first_day_of_month today, last_day_of_month today)
  else if period_key = "previous_month" then
    .ok (first_day_of_month (predDay (first_day_of_month today)),
         last_day_of_month (predDay (first_day_of_month today)))
  else if period_key = "last_6_months" then
    .ok (⟨today.year - (if today.month - 5 ≤ 0 then 1 else 0),
          ((today.month - 5 - 1) % 12) + 1, 1⟩,
         last_day_of_month today)
  else if period_key = "last_1_year" then
    .ok (⟨today.year - 1, today.month, 1⟩, last_day_of_month today)
  else
    .error (periodErrorMsg period_key)

instance {ε α : Type} [DecidableEq ε] [DecidableEq α] : DecidableEq (Except ε α) := fun a b =>
  match a, b with
  | .ok x, .ok y => decidable_of_iff (x = y) (by simp)
  | .ok _, .error _ => isFalse (by simp)
  | .error _, .ok _ => isFalse (by simp)
  | .error e, .error f => decidable_of_iff (e = f) (by simp)

/-- The decimal digit character for `n < 10` (and `9` as a dead default). -/
def digitChar (n : Nat) : Char :=
  match n with
  | 0 => '0' | 1 => '1' | 2 => '2' | 3 => '3' | 4 => '4'
  | 5 => '5' | 6 => '6' | 7 => '7' | 8 => '8' | _ => '9'

/-- Fueled most-significant-first decimal printer (fuel `n + 1` always suffices). -/
def natDigitsAux : Nat → Nat → List Char → List Char
  | 0, _, acc => acc
  | fuel + 1, n, acc =>
    if n < 10 then digitChar n :: acc
    else natDigitsAux fuel (n / 10) (digitChar (n % 10) :: acc)

/-- Decimal digits of `n`, most significant first. -/
def natToDigits (n : Nat) : List Char := natDigitsAux (n + 1) n []

/-- Decimal digits of `n` left-padded with zeros to width `w`
(the `%0wd` formatting used by `date.isoformat`). -/
def natPad (w n : Nat) : List Char :=
  List.replicate (w - (natToDigits n).length) '0' ++ natToDigits n

/-- Character content of Python `date.isoformat()`: `YYYY-MM-DD`. -/
def isoData (d : PyDate) : List Char :=
  natPad 4 d.year.toNat ++ '-' :: (natPad 2 d.month.toNat ++ '-' :: natPad 2 d.day.toNat)

/-- Models Python `date.isoformat()`. -/
def isoformat (d : PyDate) : String := ⟨isoData d⟩

/-- Models `get_field_period_filter(field, period_key)`:
`f"{field}: {{{start.isoformat()}}} .. {{{end.isoformat()}}}"`.
The ambient `date.today()` is passed explicitly as `today`. -/
def get_field_period_filter (field : String) (period_key : String) (today : PyDate) :
    Except String String :=
  match get_period_range period_key today with
  | .error e => .error e
  | .ok (s, e) =>
    .ok (field ++ ": \x7b" ++ isoformat s ++ "\x7d .. \x7b" ++ isoformat e ++ "\x7d")

/-- Models `get_created_filter(period_key)`. -/
def get_created_filter (period_key : String) (today : PyDate) : Except String String :=
  get_field_period_filter "created" period_key today

/-- Parse a non-empty all-digit character list as a decimal number. -/
def parseNatChars (cs : List Char) : Option Nat :=
  if cs ≠ [] ∧ cs.all Char.isDigit then
    some (cs.foldl (fun a c => a * 10 + (c.toNat - 48)) 0)
  else none

/-- Split a character list on a separator character. -/
def splitOnChar (sep : Char) : List Char → List (List Char)
  | [] => [[]]
  | c :: cs =>
    if c = sep then [] :: splitOnChar sep cs
    else
      match splitOnChar sep cs with
      | [] => [[c]]
      | g :: gs => (c :: g) :: gs

/-- Parse a `YYYY-MM-DD` character list back into a date. -/
def dateFromChars (cs : List Char) : Option PyDate :=
  match splitOnChar '-' cs with
  | [ys, ms, ds] =>
    match parseNatChars ys, parseNatChars ms, parseNatChars ds with
    | some y, some m, some d => some ⟨(y : Int), (m : Int), (d : Int)⟩
    | _, _, _ => none
  | _ => none

/-- Scanning a reversed character list, collect characters up to the next
opening brace; the collected group comes out in forward order. -/
def collectUntilOpen : List Char → List Char → Option (List Char × List Char)
  | [], _ => none
  | c :: cs, acc => if c = '\x7b' then some (acc, cs) else collectUntilOpen cs (c :: acc)

/-- Scanning a reversed character list, find the next closing brace and return
the bracketed group before it (in forward order) plus the remaining input. -/
def grabGroupRev : List Char → Option (List Char × List Char)
  | [] => none
  | c :: cs => if c = '\x7d' then collectUntilOpen cs [] else grabGroupRev cs

/-- Parse the two bracketed `YYYY-MM-DD` dates back out of a date-range query
fragment, scanning from the right so that arbitrary field names cannot
interfere.  Returns the `(start, end)` pair. -/
def parse_period_fragment (s : String) : Option (PyDate × PyDate) :=
  match grabGroupRev s.data.reverse with
  | none => none
  | some (g1, rest1) =>
    match grabGroupRev rest1 with
    | none => none
    | some (g2, _) =>
      match dateFromChars g2, dateFromChars g1 with
      | some a, some b => some (a, b)
      | _, _ => none

theorem daysInMonth_bounds (y m : Int) : 28 ≤ daysInMonth y m ∧ daysInMonth y m ≤ 31 := by
  unfold daysInMonth
  split_ifs <;> omega

theorem last_day_of_month_spec (y m d : Int) (h1 : 1 ≤ m) (h2 : m ≤ 12) :
    last_day_of_month ⟨y, m, d⟩ = ⟨y, m, daysInMonth y m⟩ := by
  unfold last_day_of_month predDay
  dsimp only
  by_cases hm : m = 12
  · subst hm
    rw [if_pos rfl, if_neg (by omega), if_neg (by omega)]
    unfold daysInMonth
    norm_num
  · rw [if_neg hm, if_neg (by omega), if_pos (by omega),
      show m + 1 - 1 = m from by omega]

theorem get_period_range_ok (today : PyDate) (hv : ValidDate today) :
    ∀ k ∈ PERIOD_KEYS, ∃ s e, get_period_range k today = .ok (s, e) ∧
      dateLe s e ∧ e.day = daysInMonth e.year e.month ∧
      0 ≤ s.year ∧ 1 ≤ s.month ∧ s.month ≤ 12 ∧ 1 ≤ s.day ∧ s.day ≤ 31 ∧
      0 ≤ e.year ∧ 1 ≤ e.month ∧ e.month ≤ 12 ∧ 1 ≤ e.day ∧ e.day ≤ 31 := by
  obtain ⟨y, m, d⟩ := today
  obtain ⟨hy, hm1, hm2, hd1, hd2⟩ := hv
  simp only at hy hm1 hm2 hd1 hd2
  have hdim := daysInMonth_bounds y m
  intro k hk
  simp only [PERIOD_KEYS, List.mem_cons, List.not_mem_nil, or_false] at hk
  rcases hk with rfl | rfl | rfl | rfl
  · -- current_month
    refine ⟨⟨y, m, 1⟩, ⟨y, m, daysInMonth y m⟩, ?_, ?_, rfl, ?_⟩
    · simp [get_period_range, first_day_of_month, last_day_of_month_spec y m d hm1 hm2]
    · unfold dateLe; dsimp only; omega
    · dsimp only; omega
  · -- previous_month
    have hfd : first_day_of_month ⟨y, m, d⟩ = ⟨y, m, 1⟩ := rfl
    by_cases hm : m = 1
    · subst hm
      have hpd : predDay ⟨y, 1, 1⟩ = ⟨y - 1, 12, 31⟩ := by
        unfold predDay; dsimp only; rw [if_neg (by omega), if_neg (by omega)]
      refine ⟨⟨y - 1, 12, 1⟩, ⟨y - 1, 12, 31⟩, ?_, ?_, ?_, ?_⟩
      · simp [get_period_range, hfd, hpd, first_day_of_month,
          last_day_of_month_spec (y - 1) 12 31 (by omega) (by omega), daysInMonth]
      · unfold dateLe; dsimp only; omega
      · dsimp only [daysInMonth]; norm_num
      · dsimp only; omega
    · have hpd : predDay ⟨y, m, 1⟩ = ⟨y, m - 1, daysInMonth y (m - 1)⟩ := by
        unfold predDay; dsimp only; rw [if_neg (by omega), if_pos (by omega)]
      have hdim' := daysInMonth_bounds y (m - 1)
      refine ⟨⟨y, m - 1, 1⟩, ⟨y, m - 1, daysInMonth y (m - 1)⟩, ?_, ?_, rfl, ?_⟩
      · simp [get_period_range, hfd, hpd, first_day_of_month,
          last_day_of_month_spec y (m - 1) (daysInMonth y (m - 1)) (by omega) (by omega)]
      · unfold dateLe; dsimp only; omega
      · dsimp only; omega
  · -- last_6_months
    refine ⟨⟨y - (if m - 5 ≤ 0 then 1 else 0), ((m - 5 - 1) % 12) + 1, 1⟩,
      ⟨y, m, daysInMonth y m⟩, ?_, ?_, rfl, ?_⟩
    · simp [get_period_range, last_day_of_month_spec y m d hm1 hm2]
    · unfold dateLe
      dsimp only
      split_ifs <;> omega
    · dsimp only
      split_ifs <;> omega
  · -- last_1_year
    refine ⟨⟨y - 1, m, 1⟩, ⟨y, m, daysInMonth y m⟩, ?_, ?_, rfl, ?_⟩
    · simp [get_period_range, last_day_of_month_spec y m d hm1 hm2]
    · unfold dateLe; dsimp only; omega
    · dsimp only; omega

/-- C1: for every valid reference date and every recognized period key,
`get_period_range` returns a pair `(start, end)` with `start <= end` and `end`
the true last calendar day of its month; month arithmetic rolls over year
boundaries: `previous_month` at 2025-01-10 gives `(2024-12-01, 2024-12-31)` and
`last_6_months` at 2025-03-20 starts in month 2024-10. -/
theorem C1_get_period_range_correct :
    (∀ (today : PyDate), ValidDate today → ∀ k ∈ PERIOD_KEYS,
      ∃ s e, get_period_range k today = .ok (s, e) ∧ dateLe s e ∧
        e.day = daysInMonth e.year e.month) ∧
    get_period_range "previous_month" ⟨2025, 1, 10⟩ = .ok (⟨2024, 12, 1⟩, ⟨2024, 12, 31⟩) ∧
    (∃ s e, get_period_range "last_6_months" ⟨2025, 3, 20⟩ = .ok (s, e) ∧
      s.year = 2024 ∧ s.month = 10) := by
  refine ⟨?_, by decide, ⟨⟨2024, 10, 1⟩, ⟨2025, 3, 31⟩, by decide, rfl, rfl⟩⟩
  intro today hv k hk
  obtain ⟨s, e, h1, h2, h3, -⟩ := get_period_range_ok today hv k hk
  exact ⟨s, e, h1, h2, h3⟩

/-- Witness for C1 at the concrete reference date 2025-08-15 and period key
`current_month`. -/
theorem C1_get_period_range_correct_witness :
    ValidDate ⟨2025, 8, 15⟩ ∧ "current_month" ∈ PERIOD_KEYS ∧
    (∃ s e, get_period_range "current_month" ⟨2025, 8, 15⟩ = .ok (s, e) ∧ dateLe s e ∧
      e.day = daysInMonth e.year e.month) :=
  ⟨by decide, by decide,
    C1_get_period_range_correct.1 ⟨2025, 8, 15⟩ (by decide) "current_month" (by decide)⟩

theorem string_data_append (a b : String) : (a ++ b).data = a.data ++ b.data := by
  cases a; cases b; rfl

theorem isInfix_append_left {α} {l b : List α} (a : List α) (h : l <:+: b) :
    l <:+: a ++ b := by
  obtain ⟨u, w, huw⟩ := h
  exact ⟨a ++ u, w, by rw [← huw]; simp⟩

/-- C7: for every string outside the four recognized period keys,
`get_period_range` raises a `ValueError` (modelled as `.error`) whose message
contains the offending key and each of the valid keys; for the four recognized
keys it never raises. -/
theorem C7_unknown_period_key :
    (∀ (k : String) (today : PyDate), k ∉ PERIOD_KEYS →
      get_period_range k today = .error (periodErrorMsg k) ∧
      k.data <:+: (periodErrorMsg k).data ∧
      ∀ v ∈ PERIOD_KEYS, v.data <:+: (periodErrorMsg k).data) ∧
    (∀ (k : String) (today : PyDate), k ∈ PERIOD_KEYS →
      ∃ p, get_period_range k today = .ok p) := by
  constructor
  · intro k today hk
    simp only [PERIOD_KEYS, List.mem_cons, List.not_mem_nil, or_false] at hk
    push_neg at hk
    obtain ⟨h1, h2, h3, h4⟩ := hk
    refine ⟨?_, ?_, ?_⟩
    · simp [get_period_range, h1, h2, h3, h4]
    · refine ⟨("Unknown period key: \x27" : String).data,
        ("\x27. Expected one of " ++ periodKeysStr).data, ?_⟩
      simp only [periodErrorMsg, string_data_append, List.append_assoc]
    · intro v hv
      have hmsg : (periodErrorMsg k).data =
          ("Unknown period key: \x27" : String).data ++
          (k.data ++ ("\x27. Expected one of " ++ periodKeysStr).data) := by
        simp only [periodErrorMsg, string_data_append, List.append_assoc]
      rw [hmsg]
      apply isInfix_append_left
      apply isInfix_append_left
      fin_cases hv <;> decide
  · intro k today hk
    simp only [PERIOD_KEYS, List.mem_cons, List.not_mem_nil, or_false] at hk
    rcases hk with rfl | rfl | rfl | rfl <;> exact ⟨_, rfl⟩


/-- ASCII whitespace test modelling Python `str.strip`'s default set. -/
def isPySpace (c : Char) : Bool := c.toNat = 32 || (9 ≤ c.toNat && c.toNat ≤ 13)

/-- Models Python `str.strip()` (ASCII fragment). -/
def pyStrip (s : String) : String :=
  ⟨((s.data.dropWhile isPySpace).reverse.dropWhile isPySpace).reverse⟩

/-- ASCII lower-casing of one character. -/
def lowerChar (c : Char) : Char :=
  if 65 ≤ c.toNat ∧ c.toNat ≤ 90 then Char.ofNat (c.toNat + 32) else c

/-- ASCII upper-casing of one character. -/
def upperChar (c : Char) : Char :=
  if 97 ≤ c.toNat ∧ c.toNat ≤ 122 then Char.ofNat (c.toNat - 32) else c

/-- Models Python `str.lower()` (ASCII fragment). -/
def pyLower (s : String) : String := ⟨s.data.map lowerChar⟩

/-- Models Python `str.upper()` (ASCII fragment). -/
def pyUpper (s : String) : String := ⟨s.data.map upperChar⟩

/-- Models Python `a or b` for a possibly-`None` string `a` (both `None` and
the empty string are falsy). -/
def pyOrStr (a : Option String) (b : String) : String :=
  match a with
  | none => b
  | some s => if s = "" then b else s

/-- A custom field's `value` in the JSON payload: absent/null, an enum-like
dict (with optional `name`, `localizedName` and numeric `date` entries), a
number, or a plain string. -/
inductive CFValue where
  | vnone
  | vdict (name localizedName : Option String) (date : Option Int)
  | vnum (n : Int)
  | vstr (s : String)
deriving DecidableEq, Repr

/-- One entry of an issue's `customFields` list. -/
structure CustomField where
  name : Option String
  value : CFValue
deriving DecidableEq, Repr

/-- The `project(shortName)` sub-object of an issue payload. -/
structure ProjectRef where
  shortName : Option String
deriving DecidableEq, Repr

/-- Minimal issue record fetched by `_iter_issues_minimal`. -/
structure Issue where
  idReadable : Option String
  project : Option ProjectRef
  created : Option Int
  customFields : List CustomField
deriving DecidableEq, Repr

/-- `(val.get("name") or val.get("localizedName") or "").strip()` followed by
`return name or None`, for a dict-shaped value; `None` for any other shape. -/
def dictDisplayName (v : CFValue) : Option String :=
  match v with
  | .vdict n ln _ =>
    let s := pyStrip (pyOrStr n (pyOrStr ln ""))
    if s = "" then none else some s
  | _ => none

/-- The name aliases accepted by `_extract_type_from_issue`. -/
def TYPE_FIELD_ALIASES : List String := ["type", "issue type", "issuetype"]

/-- Models `_extract_type_from_issue` on the `customFields` list: first field
whose normalized name is a type alias decides the result. -/
def extractTypeFromCFs : List CustomField → Option String
  | [] => none
  | cf :: rest =>
    if pyLower (pyStrip (pyOrStr cf.name "")) ∈ TYPE_FIELD_ALIASES then
      dictDisplayName cf.value
    else extractTypeFromCFs rest

/-- Models `_extract_type_from_issue(issue)`. -/
def extract_type_from_issue (issue : Issue) : Option String :=
  extractTypeFromCFs issue.customFields

/-- Models `_extract_state_from_issue` on the `customFields` list. -/
def extractStateFromCFs : List CustomField → Option String
  | [] => none
  | cf :: rest =>
    if pyLower (pyStrip (pyOrStr cf.name "")) = "state" then
      dictDisplayName cf.value
    else extractStateFromCFs rest

/-- Models `_extract_state_from_issue(issue)`. -/
def extract_state_from_issue (issue : Issue) : Option String :=
  extractStateFromCFs issue.customFields

/-- `config.ACTIVE_PROJECTS` as written in `config.py`. -/
def ACTIVE_PROJECTS_config : List String := ["APLUS", "AT", "AC"]

/-- `config.EXCLUDED_TYPES` as written in `config.py`. -/
def EXCLUDED_TYPES_config : List String := ["Deployment"]

/-- `[p.strip().upper() for p in config.ACTIVE_PROJECTS if p.strip()]`. -/
def ACTIVE_PROJECTS : List String :=
  (ACTIVE_PROJECTS_config.filter (fun p => pyStrip p ≠ "")).map (fun p => pyUpper (pyStrip p))

/-- `{t.strip().lower() for t in config.EXCLUDED_TYPES if ... t.strip()}`
(the set is modelled as a list; only membership is ever used). -/
def EXCLUDED_TYPES : List String :=
  (EXCLUDED_TYPES_config.filter (fun t => pyStrip t ≠ "")).map (fun t => pyLower (pyStrip t))

/-- Python `dict` lookup, on an insertion-ordered association list. -/
def dget {α : Type} (k : String) : List (String × α) → Option α
  | [] => none
  | (k', v) :: rest => if k' = k then some v else dget k rest

/-- Python `dict` assignment: update in place if present, append if absent. -/
def dset {α : Type} (k : String) (v : α) : List (String × α) → List (String × α)
  | [] => [(k, v)]
  | (k', v') :: rest => if k' = k then (k', v) :: rest else (k', v') :: dset k v rest

/-- Python `dict.setdefault(k, v0)` (the resulting dict; its return value is
`dget k` of the result). -/
def dsetdefault {α : Type} (k : String) (v₀ : α) (l : List (String × α)) :
    List (String × α) :=
  if (dget k l).isSome then l else dset k v₀ l

/-- The type bucket an issue falls into: extracted type, or `"Unspecified"`
when the extraction result is falsy. -/
def typeOfIssue (issue : Issue) : String := pyOrStr (extract_type_from_issue issue) "Unspecified"

/-- The state bucket an issue falls into. -/
def stateOfIssue (issue : Issue) : String := pyOrStr (extract_state_from_issue issue) "Unspecified"

/-- `((issue.get("project") or {}).get("shortName") or "").strip().upper()`. -/
def projOfIssue (issue : Issue) : String :=
  pyUpper (pyStrip (pyOrStr (issue.project.bind ProjectRef.shortName) ""))

/-- The issue survives the `EXCLUDED_TYPES` filter. -/
def keptIssue (issue : Issue) : Bool :=
  !(decide (pyLower (pyStrip (typeOfIssue issue)) ∈ EXCLUDED_TYPES))

/-- The issue is counted in the `overall` bucket `t` of `get_task_counts_by_type`. -/
def countedBT (t : String) (issue : Issue) : Bool :=
  keptIssue issue && (projOfIssue issue != "") && (typeOfIssue issue == t)

/-- The issue is counted in the `per_project` leaf `(p, t)` of
`get_task_counts_by_type`. -/
def countedBTP (p t : String) (issue : Issue) : Bool :=
  keptIssue issue && (projOfIssue issue != "") && (projOfIssue issue == p) &&
    (typeOfIssue issue == t)

/-- The issue is counted (kept and owning a nonempty project short name) by
`get_task_counts_by_type_and_state`. -/
def keptCountedTS (issue : Issue) : Bool :=
  keptIssue issue && (projOfIssue issue != "")

/-- The issue is counted in the `overall` leaf `(t, s)` of
`get_task_counts_by_type_and_state`. -/
def countedTS (t s : String) (issue : Issue) : Bool :=
  keptCountedTS issue && (typeOfIssue issue == t) && (stateOfIssue issue == s)

/-- The issue is counted in the `per_project` leaf `(p, t, s)` of
`get_task_counts_by_type_and_state`. -/
def countedTSP (p t s : String) (issue : Issue) : Bool :=
  countedTS t s issue && (projOfIssue issue == p)

/-- Models `_build_projects_or_clause`. -/
def build_projects_or_clause (projects : List String) : String :=
  let parts := (projects.filter (fun p => p ≠ "")).map (fun p => "project:\x7b" ++ p ++ "\x7d")
  if parts = [] then "" else String.intercalate " " parts

/-- The fixed subtask-exclusion predicate. -/
def NO_SUBTASKS_CLAUSE : String := "has: -\x7bsubtask of\x7d"

/-- Result shape of `get_task_counts_by_type` (`debug` flattened into
`query`/`raw`/`after_exclude`). -/
structure TypeCountsResult where
  per_project : List (String × List (String × Nat))
  overall : List (String × Nat)
  query : String
  raw : Nat
  after_exclude : Nat
deriving DecidableEq, Repr

/-- One loop iteration of `get_task_counts_by_type`. -/
def byTypeStep (st : TypeCountsResult) (issue : Issue) : TypeCountsResult :=
  let st := { st with raw := st.raw + 1 }
  let itype := typeOfIssue issue
  if pyLower (pyStrip itype) ∈ EXCLUDED_TYPES then st
  else
    let st := { st with after_exclude := st.after_exclude + 1 }
    let proj := projOfIssue issue
    if proj = "" then st
    else
      let pp := dsetdefault proj [] st.per_project
      let inner := (dget proj pp).getD []
      { st with
        per_project := dset proj (dset itype ((dget itype inner).getD 0 + 1) inner) pp,
        overall := dset itype ((dget itype st.overall).getD 0 + 1) st.overall }

/-- The aggregation loop of `get_task_counts_by_type` over the fetched issue
stream, from the initial state (`per_project` pre-seeded with active
projects). -/
def by_type_agg (yt_query : String) (issues : List Issue) : TypeCountsResult :=
  issues.foldl byTypeStep
    { per_project := ACTIVE_PROJECTS.map (fun p => (p, [])), overall := [],
      query := yt_query, raw := 0, after_exclude := 0 }

/-- Models `get_task_counts_by_type(period_key)`; the fetched issue stream and
the ambient `date.today()` are parameters. -/
def get_task_counts_by_type (period_key : String) (today : PyDate) (issues : List Issue) :
    Except String TypeCountsResult :=
  if ACTIVE_PROJECTS = [] then
    .ok { per_project := [], overall := [], query := "", raw := 0, after_exclude := 0 }
  else
    match get_created_filter period_key today with
    | .error e => .error e
    | .ok created_clause =>
      .ok (by_type_agg
        (pyStrip (build_projects_or_clause ACTIVE_PROJECTS ++ " " ++ created_clause ++ " " ++
          NO_SUBTASKS_CLAUSE)) issues)

/-- Result shape of `get_task_counts_by_type_and_state`. -/
structure TypeStateCountsResult where
  per_project : List (String × List (String × List (String × Nat)))
  overall : List (String × List (String × Nat))
  query : String
  raw : Nat
  after_exclude : Nat
deriving DecidableEq, Repr

/-- One loop iteration of `get_task_counts_by_type_and_state`.  Note the
empty-project skip happens before `after_exclude` is incremented. -/
def byTypeStateStep (st : TypeStateCountsResult) (issue : Issue) : TypeStateCountsResult :=
  let st := { st with raw := st.raw + 1 }
  let itype := typeOfIssue issue
  if pyLower (pyStrip itype) ∈ EXCLUDED_TYPES then st
  else
    let istate := stateOfIssue issue
    let proj := projOfIssue issue
    if proj = "" then st
    else
      let pp := dsetdefault proj [] st.per_project
      let m1 := dsetdefault itype [] ((dget proj pp).getD [])
      let m2 := (dget itype m1).getD []
      let ov := dsetdefault itype [] st.overall
      let om := (dget itype ov).getD []
      { st with
        per_project := dset proj (dset itype (dset istate ((dget istate m2).getD 0 + 1) m2) m1) pp,
        overall := dset itype (dset istate ((dget istate om).getD 0 + 1) om) ov,
        after_exclude := st.after_exclude + 1 }

/-- The aggregation loop of `get_task_counts_by_type_and_state`. -/
def type_state_agg (yt_query : String) (issues : List Issue) : TypeStateCountsResult :=
  issues.foldl byTypeStateStep
    { per_project := ACTIVE_PROJECTS.map (fun p => (p, [])), overall := [],
      query := yt_query, raw := 0, after_exclude := 0 }

/-- Models `get_task_counts_by_type_and_state(period_key)`. -/
def get_task_counts_by_type_and_state (period_key : String) (today : PyDate)
    (issues : List Issue) : Except String TypeStateCountsResult :=
  if ACTIVE_PROJECTS = [] then
    .ok { per_project := [], overall := [], query := "", raw := 0, after_exclude := 0 }
  else
    match get_created_filter period_key today with
    | .error e => .error e
    | .ok created_clause =>
      .ok (type_state_agg
        (pyStrip (build_projects_or_clause ACTIVE_PROJECTS ++ " " ++ created_clause ++ " " ++
          NO_SUBTASKS_CLAUSE)) issues)

/-- Sum of the leaf counts of a one-level count dict. -/
def sum1 (m : List (String × Nat)) : Nat := (m.map Prod.snd).sum

/-- Sum of the leaf counts of a two-level count tree. -/
def sum2 (m : List (String × List (String × Nat))) : Nat := (m.map (fun p => sum1 p.2)).sum

/-- Sum of the leaf counts of a three-level count tree. -/
def sum3 (m : List (String × List (String × List (String × Nat)))) : Nat :=
  (m.map (fun p => sum2 p.2)).sum

/-- Two-level lookup in a nested count tree. -/
def dget2 {α : Type} (k1 k2 : String) (l : List (String × List (String × α))) : Option α :=
  match dget k1 l with
  | none => none
  | some m => dget k2 m

/-- Three-level lookup in a nested count tree. -/
def dget3 {α : Type} (k1 k2 k3 : String)
    (l : List (String × List (String × List (String × α)))) : Option α :=
  match dget k1 l with
  | none => none
  | some m => dget2 k2 k3 m


/-- An issue with an enum `Type` custom field and an owning project. -/
def issueOfType (t proj : String) : Issue :=
  ⟨none, some ⟨some proj⟩, none, [⟨some "Type", .vdict (some t) none none⟩]⟩

/-- An issue with an enum `Type` custom field and no project sub-object. -/
def issueNoProj (t : String) : Issue :=
  ⟨none, none, none, [⟨some "Type", .vdict (some t) none none⟩]⟩


/-- `f"{year}-{m:02d}"`: the month bucket key of the monthly aggregation. -/
def monthKey (year m : Int) : String :=
  toString year ++ "-" ++ (⟨natPad 2 m.toNat⟩ : String)

/-- The YouTrack query issued for one month of `get_monthly_task_counts_by_type`:
project clause, created-range clause over the month's first and last day
(`calendar.monthrange` gives the last day), and the subtask exclusion. -/
def monthQuery (project : String) (year m : Int) : String :=
  let start : PyDate := ⟨year, m, 1⟩
  let stop : PyDate := ⟨year, m, daysInMonth year m⟩
  pyStrip ("project: \x7b" ++ project ++ "\x7d" ++ " " ++
    ("created: \x7b" ++ isoformat start ++ "\x7d .. \x7b" ++ isoformat stop ++ "\x7d") ++ " " ++
    NO_SUBTASKS_CLAUSE)

/-- The per-type counts accumulated from one month's fetched issues
(`EXCLUDED_TYPES` respected, type defaulting to `"Unspecified"`). -/
def monthPerType (fetched : List Issue) : List (String × Nat) :=
  fetched.foldl (fun pt issue =>
    let itype := pyOrStr (extract_type_from_issue issue) "Unspecified"
    if pyLower (pyStrip itype) ∈ EXCLUDED_TYPES then pt
    else dset itype ((dget itype pt).getD 0 + 1) pt) []

/-- Models `get_monthly_task_counts_by_type(project, year)`; the ambient
`date.today()` and the paged fetch per query string are parameters.  The
credential guard of the source is a no-op in a running module (module import
raises when the URL or token is missing), so only the project guard is kept. -/
def get_monthly_task_counts_by_type (project : String) (year : Int) (today : PyDate)
    (fetch : String → List Issue) : List (String × List (String × Nat)) :=
  if project = "" then []
  else
    let current_month : Int := if year = today.year then today.month else 12
    let months : List Int := (List.range current_month.toNat).map (fun i : Nat => (i : Int) + 1)
    let month_keys := months.map (fun m => monthKey year m)
    let out := months.foldl (fun acc m =>
      dset (monthKey year m) (monthPerType (fetch (monthQuery project year m))) acc) []
    month_keys.map (fun k => (k, (dget k out).getD []))


/-- The paged fetch loop shared by `_iter_issues_minimal` and
`_iter_issues_with_fields`: request `page_size` records at offset `skip`,
yield the batch, stop on an empty batch or one shorter than `page_size`,
else continue at `skip + page_size`.  `get` is the response oracle (offset to
batch); `fuel` bounds the number of iterations (the Python loop is unbounded).
Returns the offsets requested and the records yielded, both in order. -/
def iter_paged {α : Type} [DecidableEq α] (get : Nat → List α) (page_size : Nat) :
    Nat → Nat → List Nat × List α
  | 0, _ => ([], [])
  | fuel + 1, skip =>
    let batch := get skip
    if batch = [] then ([skip], [])
    else if batch.length < page_size then ([skip], batch)
    else
      let rest := iter_paged get page_size fuel (skip + page_size)
      (skip :: rest.1, batch ++ rest.2)

/-- Models the stream yielded by `_iter_issues_minimal(yt_query, page_size)`. -/
def iter_issues_minimal {α : Type} [DecidableEq α] (get : Nat → List α)
    (page_size fuel : Nat) : List α :=
  (iter_paged get page_size fuel 0).2

/-- Models the stream yielded by `_iter_issues_with_fields(yt_query, fields=..,
page_size=..)` (the same loop, requesting a richer field selection). -/
def iter_issues_with_fields {α : Type} [DecidableEq α] (get : Nat → List α)
    (page_size fuel : Nat) : List α :=
  (iter_paged get page_size fuel 0).2


/-- Character class `[A-Z0-9_]` of the issue-key regex body. -/
def keyBodyChar (c : Char) : Bool := c.isUpper || c.isDigit || c = '_'

/-- Models `_is_valid_issue_key`: the regex `[A-Z][A-Z0-9_]*-[0-9]+` anchored
at both ends.  Since neither character class contains `-`, a match has
exactly one dash, so splitting on `-` is equivalent. -/
def is_valid_issue_key (s : String) : Bool :=
  match splitOnChar '-' s.data with
  | [a, b] =>
    (match a with
     | [] => false
     | c :: rest => c.isUpper && rest.all keyBodyChar) &&
    (match b with
     | [] => false
     | _ => b.all Char.isDigit)
  | _ => false

/-- Civil date from days since 1970-01-01 (proleptic Gregorian; the standard
era-based algorithm, with floor division throughout). -/
def civilFromDays (days : Int) : PyDate :=
  let z := days + 719468
  let era := z.ediv 146097
  let doe := z - era * 146097
  let yoe := (doe - doe.ediv 1460 + doe.ediv 36524 - doe.ediv 146096).ediv 365
  let y := yoe + era * 400
  let doy := doe - (365 * yoe + yoe.ediv 4 - yoe.ediv 100)
  let mp := (5 * doy + 2).ediv 153
  let d := doy - (153 * mp + 2).ediv 5 + 1
  let m := mp + (if mp < 10 then 3 else -9)
  ⟨y + (if m ≤ 2 then 1 else 0), m, d⟩

/-- Models `datetime.fromtimestamp(ms / 1000.0, tz=timezone.utc).date().isoformat()`
for positive epoch milliseconds. -/
def epochMsToIso (ms : Int) : String := isoformat (civilFromDays (ms.fdiv 86400000))

/-- `created_iso` computation: epoch ms to `YYYY-MM-DD` when numeric and
positive, empty string otherwise. -/
def createdIsoOf (created : Option Int) : String :=
  match created with
  | some ms => if 0 < ms then epochMsToIso ms else ""
  | none => ""

/-- A linked-issue object inside a `links(...)` payload (also the shape
returned by the single-issue lookup endpoint). -/
structure LinkedIssuePayload where
  idReadable : Option String
  id : Option String
  summary : Option String
  created : Option Int
  project : Option ProjectRef
  customFields : List CustomField
deriving DecidableEq, Repr

/-- One link object: `linkType(name)` plus its linked issues. -/
structure Link where
  linkTypeName : Option String
  issues : Option (List LinkedIssuePayload)
deriving DecidableEq, Repr

/-- One resolved linked-task row appended to `linked_out`. -/
structure LinkedTaskRecord where
  id : String
  project : String
  type : String
  state : String
  title : String
  created_on : String
deriving DecidableEq, Repr

/-- The mutable state threaded through `_collect_links_into`. -/
structure CollectSt where
  seen_link_types : List String
  seen_ids : List String
  linked_out : List LinkedTaskRecord
deriving DecidableEq, Repr

/-- `set.add` on the observed link-type names (order of first occurrence). -/
def addSeenType (raw : String) (l : List String) : List String :=
  if raw ∈ l then l else l ++ [raw]

/-- `issue_key = iid_internal or iid_readable` used for the backfill lookup. -/
def entry_issue_key (li : LinkedIssuePayload) : String :=
  let iid_internal := pyStrip (pyOrStr li.id "")
  let iid_readable := pyStrip (pyOrStr li.idReadable "")
  if iid_internal ≠ "" then iid_internal else iid_readable

/-- The per-entry field resolution of `_collect_links_into`: raw fields from
the link payload, then — when the readable key is invalid or project, type or
state is falsy — a backfill lookup whose failure is swallowed.  Python
falsy-or-`None` strings are encoded as `""`.  Returns
`(iid_readable, project_short, itype, istate, title, created_iso)`. -/
def resolveEntryVals (lookup : String → Except Unit LinkedIssuePayload)
    (li : LinkedIssuePayload) : String × String × String × String × String × String :=
  let iid_readable := pyStrip (pyOrStr li.idReadable "")
  let project_short := pyUpper (pyStrip (pyOrStr (li.project.bind ProjectRef.shortName) ""))
  let itype := pyOrStr (extractTypeFromCFs li.customFields) ""
  let istate := pyOrStr (extractStateFromCFs li.customFields) ""
  let title := pyStrip (pyOrStr li.summary "")
  let created_iso := createdIsoOf li.created
  if ¬ is_valid_issue_key iid_readable ∨ project_short = "" ∨ itype = "" ∨ istate = "" then
    match lookup (entry_issue_key li) with
    | .error _ => (iid_readable, project_short, itype, istate, title, created_iso)
    | .ok resolved =>
      let r := pyStrip (pyOrStr resolved.idReadable "")
      ((if r ≠ "" then r else iid_readable),
       (if project_short ≠ "" then project_short
        else pyUpper (pyStrip (pyOrStr (resolved.project.bind ProjectRef.shortName) ""))),
       (if itype ≠ "" then itype
        else pyOrStr (extractTypeFromCFs resolved.customFields) "Unspecified"),
       (if istate ≠ "" then istate
        else pyOrStr (extractStateFromCFs resolved.customFields) "Unspecified"),
       (if title ≠ "" then title else pyStrip (pyOrStr resolved.summary "")),
       (if created_iso ≠ "" then created_iso else createdIsoOf resolved.created))
  else (iid_readable, project_short, itype, istate, title, created_iso)

/-- Processing of one linked-issue entry: resolve fields, drop the entry if
the readable key is still invalid, deduplicate on the final readable key,
else append the record.  Returns the new state and the number appended (0/1). -/
def processLinkEntry (lookup : String → Except Unit LinkedIssuePayload) (st : CollectSt)
    (li : LinkedIssuePayload) : CollectSt × Nat :=
  let v := resolveEntryVals lookup li
  if ¬ is_valid_issue_key v.1 then (st, 0)
  else if v.1 ∈ st.seen_ids then (st, 0)
  else
    ({ st with
        seen_ids := st.seen_ids ++ [v.1],
        linked_out := st.linked_out ++
          [{ id := v.1, project := v.2.1, type := pyOrStr (some v.2.2.1) "Unspecified",
             state := pyOrStr (some v.2.2.2.1) "Unspecified", title := v.2.2.2.2.1,
             created_on := v.2.2.2.2.2 }] }, 1)

/-- The fold over one link's `issues` list. -/
def entryStep (lookup : String → Except Unit LinkedIssuePayload) (acc : CollectSt × Nat)
    (li : LinkedIssuePayload) : CollectSt × Nat :=
  let r := processLinkEntry lookup acc.1 li
  (r.1, acc.2 + r.2)

/-- The body of `_collect_links_into`'s outer loop over one link object:
record the raw link-type name, apply the allowed-set filter, then process the
link's issues. -/
def collectLinkStep (lookup : String → Except Unit LinkedIssuePayload)
    (allowed : Option (List String)) (acc : CollectSt × Nat) (link : Link) :
    CollectSt × Nat :=
  let ltype_raw := pyStrip (pyOrStr link.linkTypeName "")
  let ltype := pyLower ltype_raw
  let st1 := { acc.1 with seen_link_types := addSeenType ltype_raw acc.1.seen_link_types }
  match allowed with
  | some al =>
    if ltype ∈ al then (link.issues.getD []).foldl (entryStep lookup) (st1, acc.2)
    else (st1, acc.2)
  | none => (link.issues.getD []).foldl (entryStep lookup) (st1, acc.2)

/-- Models `_collect_links_into(links_payload, allowed, seen_link_types,
seen_ids, linked_out)`; the state is threaded explicitly and the return value
is the number of entries appended by this call. -/
def collect_links_into (lookup : String → Except Unit LinkedIssuePayload)
    (allowed : Option (List String)) (links : List Link) (st : CollectSt) :
    CollectSt × Nat :=
  links.foldl (collectLinkStep lookup allowed) (st, 0)

/-- A deployment issue payload as fetched by `get_deployments_on_live`. -/
structure DepPayload where
  idReadable : Option String
  id : Option String
  summary : Option String
  dueDate : Option Int
  customFields : List CustomField
  links : Option (List Link)
deriving DecidableEq, Repr

/-- The custom-field scan of `_extract_due_date_iso`; `datetime.fromisoformat`
is modelled for date-only strings by `dateFromChars` (its failure returns the
raw string, as in the source's `except` branches). -/
def dueFromCFs : List CustomField → Option String
  | [] => none
  | f :: rest =>
    if pyLower (pyStrip (pyOrStr f.name "")) = "due date" ∨
        pyLower (pyStrip (pyOrStr f.name "")) = "duedate" then
      match f.value with
      | .vnum n => if 0 < n then some (epochMsToIso n) else dueFromCFs rest
      | .vdict nm _ dt =>
        let sname := pyStrip (pyOrStr nm "")
        let fallbackDict :=
          if sname ≠ "" then
            some (match dateFromChars sname.data with
                  | some d => isoformat d
                  | none => sname)
          else dueFromCFs rest
        (match dt with
         | some dd => if 0 < dd then some (epochMsToIso dd) else fallbackDict
         | none => fallbackDict)
      | .vstr s =>
        if pyStrip s ≠ "" then
          some (match dateFromChars (pyStrip s).data with
                | some d => isoformat d
                | none => pyStrip s)
        else dueFromCFs rest
      | .vnone => dueFromCFs rest
    else dueFromCFs rest

/-- Models `_extract_due_date_iso(issue)`. -/
def extract_due_date_iso (issue : DepPayload) : Option String :=
  match issue.dueDate with
  | some ms => if 0 < ms then some (epochMsToIso ms) else dueFromCFs issue.customFields
  | none => dueFromCFs issue.customFields

/-- `_DEPLOYMENT_LINK_TYPES` (a set in the source; only membership is used). -/
def DEPLOYMENT_LINK_TYPES : List String := ["relates", "subtask"]

/-- Insertion into a sorted string list (for `sorted(...)`). -/
def insertSorted (x : String) : List String → List String
  | [] => [x]
  | y :: ys => if x ≤ y then x :: y :: ys else y :: insertSorted x ys

/-- Models Python `sorted` on a list of strings. -/
def sortStrings : List String → List String
  | [] => []
  | x :: xs => insertSorted x (sortStrings xs)

/-- One row of the `deployments` output. -/
structure DeploymentRow where
  deployment_id : String
  deployment_title : String
  due_date : Option String
  linked : List LinkedTaskRecord
deriving DecidableEq, Repr

/-- The result of `get_deployments_on_live` (`debug` flattened). -/
structure DeploymentsResult where
  deployments : List DeploymentRow
  query : String
  count : Nat
  link_types_seen : Option (List String)
deriving DecidableEq, Repr

/-- Processing of one deployment: inline links first, then — when the inline
pass appended nothing and an internal id is available — the fallback
per-issue links call, whose failure degrades to the inline result.  The
`seen_link_types` set is threaded across deployments; `seen_ids` and
`linked_out` start fresh per deployment. -/
def processDeployment (lookup : String → Except Unit LinkedIssuePayload)
    (fallbackLinks : String → Except Unit (List Link)) (allowed : Option (List String))
    (seenTypes : List String) (dep : DepPayload) : DeploymentRow × List String :=
  let dep_id_readable := pyOrStr dep.idReadable ""
  let dep_dbid := pyOrStr dep.id ""
  let title := pyOrStr dep.summary ""
  let due_iso := extract_due_date_iso dep
  let r1 := collect_links_into lookup allowed (dep.links.getD []) ⟨seenTypes, [], []⟩
  let st2 :=
    if r1.2 = 0 ∧ dep_dbid ≠ "" then
      match fallbackLinks dep_dbid with
      | .ok dls => (collect_links_into lookup allowed dls r1.1).1
      | .error _ => r1.1
    else r1.1
  (⟨dep_id_readable, title, due_iso, st2.linked_out⟩, st2.seen_link_types)

/-- The fold over the fetched deployments, accumulating rows and the shared
`seen_link_types` set. -/
def depFoldStep (lookup : String → Except Unit LinkedIssuePayload)
    (fallbackLinks : String → Except Unit (List Link)) (allowed : Option (List String))
    (acc : List DeploymentRow × List String) (dep : DepPayload) :
    List DeploymentRow × List String :=
  let r := processDeployment lookup fallbackLinks allowed acc.2 dep
  (acc.1 ++ [r.1], r.2)

/-- Models `get_deployments_on_live(project, period_key, link_types=...,
discover_link_types=...)`.  The fetched deployment stream and the two HTTP
endpoints (per-issue links fallback, single-issue lookup) are oracle
parameters; oracle `.error` models a raised `requests` exception.  The
credential guard is a no-op in a running module, so only the project guard is
kept. -/
def get_deployments_on_live (project period_key : String)
    (link_types : Option (List String)) (discover_link_types : Bool) (today : PyDate)
    (deps : List DepPayload) (fallbackLinks : String → Except Unit (List Link))
    (lookup : String → Except Unit LinkedIssuePayload) : Except String DeploymentsResult :=
  if project = "" then .ok ⟨[], "", 0, none⟩
  else
    match get_field_period_filter "due date" period_key today with
    | .error e => .error e
    | .ok due_clause =>
      let yt_query := pyStrip ("project: \x7b" ++ project ++ "\x7d" ++ " " ++
        "Type:\x7bDeployment\x7d" ++ " " ++ due_clause ++ " " ++ NO_SUBTASKS_CLAUSE)
      let lts := match link_types with
        | some l => if l = [] then DEPLOYMENT_LINK_TYPES else l
        | none => DEPLOYMENT_LINK_TYPES
      let allowed : Option (List String) :=
        if discover_link_types then none
        else some (lts.map (fun s => pyLower (pyStrip s)))
      let folded := deps.foldl (depFoldStep lookup fallbackLinks allowed) ([], [])
      .ok ⟨folded.1, yt_query, folded.1.length,
        if discover_link_types then some (sortStrings folded.2) else none⟩

/-- A link entry with a malformed readable identifier and no internal id. -/
def badLi : LinkedIssuePayload := ⟨some "bad id", none, none, none, none, []⟩

/-- A fully-populated linked task payload (valid key `AP-2`). -/
def dupLinked : LinkedIssuePayload :=
  ⟨some "AP-2", some "2-2", some "Task", none, some ⟨some "AP"⟩,
   [⟨some "Type", .vdict (some "Bug") none none⟩,
    ⟨some "State", .vdict (some "Open") none none⟩]⟩

/-- A deployment whose inline payload links the same task twice via two
`relates` links. -/
def dupDep : DepPayload :=
  ⟨some "AP-1", some "2-1", some "Release", none, [],
   some [⟨some "relates", some [dupLinked]⟩, ⟨some "relates", some [dupLinked]⟩]⟩

/-- A deployment with no inline links (so the fallback call is attempted). -/
def demoDep : DepPayload := ⟨some "AP-1", some "2-1", some "Release", none, [], none⟩

/-- The deduplication invariant of `_collect_links_into`: every appended
record's final readable key is registered in `seen_ids`, and the appended
records carry pairwise distinct keys. -/
def CollectInv (st : CollectSt) : Prop :=
  (∀ r ∈ st.linked_out, r.id ∈ st.seen_ids) ∧
  (st.linked_out.map LinkedTaskRecord.id).Nodup

theorem digitChar_isDigit (n : Nat) : (digitChar n).isDigit = true := by
  rcases n with _ | _ | _ | _ | _ | _ | _ | _ | _ | n <;> rfl

theorem digitChar_toNat (n : Nat) (h : n < 10) : (digitChar n).toNat - 48 = n := by
  interval_cases n <;> decide

theorem isDigit_ne_special (c : Char) (h : c.isDigit = true) :
    c ≠ '-' ∧ c ≠ '\x7b' ∧ c ≠ '\x7d' := by
  refine ⟨?_, ?_, ?_⟩ <;> rintro rfl <;> exact absurd h (by decide)

theorem natDigitsAux_spec : ∀ (fuel n : Nat) (acc : List Char), n < fuel →
    ∃ ds, natDigitsAux fuel n acc = ds ++ acc ∧ ds ≠ [] ∧ (∀ c ∈ ds, c.isDigit = true) ∧
      ∀ a : Nat, ds.foldl (fun a c => a * 10 + (c.toNat - 48)) a = a * 10 ^ ds.length + n := by
  intro fuel
  induction fuel with
  | zero => intro n acc h; omega
  | succ f ih =>
    intro n acc h
    rw [natDigitsAux]
    by_cases h10 : n < 10
    · rw [if_pos h10]
      refine ⟨[digitChar n], rfl, by simp, ?_, ?_⟩
      · intro c hc
        rw [List.mem_singleton] at hc
        subst hc
        exact digitChar_isDigit n
      · intro a
        simp [List.foldl, digitChar_toNat n h10]
    · rw [if_neg h10]
      have hrec : n / 10 < f := by omega
      obtain ⟨ds, heq, hne, hdig, hfold⟩ := ih (n / 10) (digitChar (n % 10) :: acc) hrec
      refine ⟨ds ++ [digitChar (n % 10)], ?_, by simp, ?_, ?_⟩
      · rw [heq]; simp
      · intro c hc
        rcases List.mem_append.mp hc with hc | hc
        · exact hdig c hc
        · rw [List.mem_singleton] at hc
          subst hc
          exact digitChar_isDigit (n % 10)
      · intro a
        rw [List.foldl_append, hfold a]
        simp only [List.foldl, List.length_append, List.length_singleton]
        rw [digitChar_toNat (n % 10) (by omega), pow_succ, ← Nat.mul_assoc]
        have h1 : n % 10 < 10 := by omega
        have h2 : n / 10 * 10 + n % 10 = n := by omega
        omega

theorem natToDigits_spec (n : Nat) :
    natToDigits n ≠ [] ∧ (∀ c ∈ natToDigits n, c.isDigit = true) ∧
      ∀ a : Nat, (natToDigits n).foldl (fun a c => a * 10 + (c.toNat - 48)) a =
        a * 10 ^ (natToDigits n).length + n := by
  obtain ⟨ds, heq, hne, hdig, hfold⟩ := natDigitsAux_spec (n + 1) n [] (by omega)
  rw [List.append_nil] at heq
  unfold natToDigits
  rw [heq]
  exact ⟨hne, hdig, hfold⟩

theorem foldl_replicate_zero (k : Nat) :
    (List.replicate k '0').foldl (fun a c => a * 10 + (c.toNat - 48)) 0 = 0 := by
  induction k with
  | zero => rfl
  | succ k ih => simpa [List.replicate_succ, List.foldl] using ih

theorem mem_natPad_digit (w n : Nat) (c : Char) (hc : c ∈ natPad w n) : c.isDigit = true := by
  obtain ⟨-, hdig, -⟩ := natToDigits_spec n
  unfold natPad at hc
  rcases List.mem_append.mp hc with hc | hc
  · rw [List.eq_of_mem_replicate hc]; decide
  · exact hdig c hc

theorem parseNat_natPad (w n : Nat) : parseNatChars (natPad w n) = some n := by
  obtain ⟨hne, hdig, hfold⟩ := natToDigits_spec n
  unfold parseNatChars
  rw [if_pos ?hcond]
  case hcond =>
    constructor
    · unfold natPad; simp [hne]
    · rw [List.all_eq_true]
      intro c hc
      exact mem_natPad_digit w n c hc
  unfold natPad
  rw [List.foldl_append, foldl_replicate_zero, hfold 0]
  simp

theorem splitOnChar_no_sep (sep : Char) : ∀ (a : List Char), (∀ c ∈ a, c ≠ sep) →
    splitOnChar sep a = [a] := by
  intro a
  induction a with
  | nil => intro _; rfl
  | cons c cs ih =>
    intro h
    rw [splitOnChar, if_neg (h c (List.mem_cons_self c cs)),
      ih (fun x hx => h x (List.mem_cons_of_mem c hx))]

theorem splitOnChar_append_sep (sep : Char) : ∀ (a rest : List Char), (∀ c ∈ a, c ≠ sep) →
    splitOnChar sep (a ++ sep :: rest) = a :: splitOnChar sep rest := by
  intro a
  induction a with
  | nil => intro rest _; rw [List.nil_append, splitOnChar, if_pos rfl]
  | cons c cs ih =>
    intro rest h
    rw [List.cons_append, splitOnChar, if_neg (h c (List.mem_cons_self c cs)),
      ih rest (fun x hx => h x (List.mem_cons_of_mem c hx))]

theorem dateFromChars_iso (d : PyDate) (hy : 0 ≤ d.year) (hm : 0 ≤ d.month) (hd : 0 ≤ d.day) :
    dateFromChars (isoData d) = some d := by
  have hnd : ∀ (w n : Nat), ∀ c ∈ natPad w n, c ≠ '-' :=
    fun w n c hc => (isDigit_ne_special c (mem_natPad_digit w n c hc)).1
  unfold dateFromChars isoData
  rw [splitOnChar_append_sep '-' _ _ (hnd 4 d.year.toNat),
    splitOnChar_append_sep '-' _ _ (hnd 2 d.month.toNat),
    splitOnChar_no_sep '-' _ (hnd 2 d.day.toNat)]
  dsimp only
  rw [parseNat_natPad, parseNat_natPad, parseNat_natPad]
  dsimp only
  obtain ⟨y, m, dd⟩ := d
  simp only at hy hm hd
  simp [Int.toNat_of_nonneg, hy, hm, hd]

theorem isoData_no_brace (d : PyDate) : ∀ c ∈ isoData d, c ≠ '\x7b' ∧ c ≠ '\x7d' := by
  intro c hc
  unfold isoData at hc
  simp only [List.mem_append, List.mem_cons] at hc
  rcases hc with hc | rfl | hc | rfl | hc
  · have := isDigit_ne_special c (mem_natPad_digit _ _ c hc); exact ⟨this.2.1, this.2.2⟩
  · exact ⟨by decide, by decide⟩
  · have := isDigit_ne_special c (mem_natPad_digit _ _ c hc); exact ⟨this.2.1, this.2.2⟩
  · exact ⟨by decide, by decide⟩
  · have := isDigit_ne_special c (mem_natPad_digit _ _ c hc); exact ⟨this.2.1, this.2.2⟩

theorem collectUntilOpen_spec : ∀ (H acc rest : List Char), (∀ c ∈ H, c ≠ '\x7b') →
    collectUntilOpen (H ++ '\x7b' :: rest) acc = some (H.reverse ++ acc, rest) := by
  intro H
  induction H with
  | nil => intro acc rest _; rw [List.nil_append, collectUntilOpen, if_pos rfl]; rfl
  | cons c cs ih =>
    intro acc rest h
    rw [List.cons_append, collectUntilOpen, if_neg (h c (List.mem_cons_self c cs)),
      ih (c :: acc) rest (fun x hx => h x (List.mem_cons_of_mem c hx))]
    simp

theorem grabGroupRev_cons_ne (c : Char) (cs : List Char) (h : c ≠ '\x7d') :
    grabGroupRev (c :: cs) = grabGroupRev cs := by
  rw [grabGroupRev, if_neg h]

theorem grabGroupRev_hit (H rest : List Char) (h : ∀ c ∈ H, c ≠ '\x7b') :
    grabGroupRev ('\x7d' :: (H ++ '\x7b' :: rest)) = some (H.reverse, rest) := by
  rw [grabGroupRev, if_pos rfl, collectUntilOpen_spec H [] rest h, List.append_nil]

theorem parse_fragment_roundtrip (field : String) (s e : PyDate)
    (hs : 0 ≤ s.year ∧ 0 ≤ s.month ∧ 0 ≤ s.day) (he : 0 ≤ e.year ∧ 0 ≤ e.month ∧ 0 ≤ e.day) :
    parse_period_fragment
      (field ++ ": \x7b" ++ isoformat s ++ "\x7d .. \x7b" ++ isoformat e ++ "\x7d") =
      some (s, e) := by
  have hdata : (field ++ ": \x7b" ++ isoformat s ++ "\x7d .. \x7b" ++ isoformat e ++
      "\x7d").data = field.data ++ (':' :: ' ' :: '\x7b' ::
        (isoData s ++ ('\x7d' :: ' ' :: '.' :: '.' :: ' ' :: '\x7b' ::
          (isoData e ++ ['\x7d'])))) := by
    simp only [string_data_append]
    have h4 : (isoformat s).data = isoData s := rfl
    have h5 : (isoformat e).data = isoData e := rfl
    rw [h4, h5]
    simp [List.append_assoc]
  have hrev : (field.data ++ (':' :: ' ' :: '\x7b' ::
      (isoData s ++ ('\x7d' :: ' ' :: '.' :: '.' :: ' ' :: '\x7b' ::
        (isoData e ++ ['\x7d']))))).reverse =
      '\x7d' :: ((isoData e).reverse ++ ('\x7b' :: ' ' :: '.' :: '.' :: ' ' :: '\x7d' ::
        ((isoData s).reverse ++ ('\x7b' :: ' ' :: ':' :: field.data.reverse)))) := by
    simp [List.reverse_append, List.append_assoc]
  have hsnb : ∀ c ∈ (isoData s).reverse, c ≠ '\x7b' := by
    intro c hc
    exact (isoData_no_brace s c (List.mem_reverse.mp hc)).1
  have henb : ∀ c ∈ (isoData e).reverse, c ≠ '\x7b' := by
    intro c hc
    exact (isoData_no_brace e c (List.mem_reverse.mp hc)).1
  have hskip : grabGroupRev (' ' :: '.' :: '.' :: ' ' :: '\x7d' ::
      ((isoData s).reverse ++ ('\x7b' :: ' ' :: ':' :: field.data.reverse))) =
      some (isoData s, ' ' :: ':' :: field.data.reverse) := by
    rw [grabGroupRev_cons_ne _ _ (by decide), grabGroupRev_cons_ne _ _ (by decide),
      grabGroupRev_cons_ne _ _ (by decide), grabGroupRev_cons_ne _ _ (by decide),
      grabGroupRev_hit _ _ hsnb, List.reverse_reverse]
  unfold parse_period_fragment
  rw [hdata, hrev, grabGroupRev_hit _ _ henb, List.reverse_reverse]
  dsimp only
  rw [hskip]
  dsimp only
  rw [dateFromChars_iso s hs.1 hs.2.1 hs.2.2, dateFromChars_iso e he.1 he.2.1 he.2.2]

/-- C9: for every field name, recognized period key and valid reference date,
the date-range fragment produced by `get_field_period_filter` round-trips:
parsing the two bracketed dates back out of the fragment yields exactly the
`(start, end)` pair that `get_period_range` produced. -/
theorem C9_fragment_roundtrip (field : String) (k : String) (today : PyDate)
    (hv : ValidDate today) (hk : k ∈ PERIOD_KEYS) :
    ∃ s e frag, get_period_range k today = .ok (s, e) ∧
      get_field_period_filter field k today = .ok frag ∧
      parse_period_fragment frag = some (s, e) := by
  obtain ⟨s, e, hok, -, -, hs1, hs2, -, hs4, -, he1, he2, -, he4, -⟩ :=
    get_period_range_ok today hv k hk
  refine ⟨s, e, field ++ ": \x7b" ++ isoformat s ++ "\x7d .. \x7b" ++ isoformat e ++ "\x7d",
    hok, ?_, ?_⟩
  · unfold get_field_period_filter
    rw [hok]
  · exact parse_fragment_roundtrip field s e ⟨hs1, by omega, by omega⟩ ⟨he1, by omega, by omega⟩

/-- Witness for C9 at field `created`, period key `current_month` and reference
date 2025-08-15. -/
theorem C9_fragment_roundtrip_witness :
    ValidDate ⟨2025, 8, 15⟩ ∧ "current_month" ∈ PERIOD_KEYS ∧
    (∃ s e frag, get_period_range "current_month" ⟨2025, 8, 15⟩ = .ok (s, e) ∧
      get_field_period_filter "created" "current_month" ⟨2025, 8, 15⟩ = .ok frag ∧
      parse_period_fragment frag = some (s, e)) :=
  ⟨by decide, by decide,
    C9_fragment_roundtrip "created" "current_month" ⟨2025, 8, 15⟩ (by decide) (by decide)⟩

theorem dget_dset_self {α : Type} (k : String) (v : α) (l : List (String × α)) :
    dget k (dset k v l) = some v := by
  induction l with
  | nil => simp [dset, dget]
  | cons kv rest ih =>
    obtain ⟨k', v'⟩ := kv
    rw [dset]
    by_cases h : k' = k
    · rw [if_pos h, dget, if_pos h]
    · rw [if_neg h, dget, if_neg h, ih]

theorem dget_dset_ne {α : Type} {k k' : String} (h : k' ≠ k) (v : α) (l : List (String × α)) :
    dget k (dset k' v l) = dget k l := by
  induction l with
  | nil => simp [dset, dget, h]
  | cons kv rest ih =>
    obtain ⟨a, b⟩ := kv
    rw [dset]
    by_cases ha : a = k'
    · rw [if_pos ha, dget, dget]
      subst ha
      rw [if_neg h, if_neg h]
    · rw [if_neg ha, dget, dget, ih]

theorem dget_dsetdefault_self {α : Type} (k : String) (v₀ : α) (l : List (String × α)) :
    dget k (dsetdefault k v₀ l) = some ((dget k l).getD v₀) := by
  unfold dsetdefault
  cases h : dget k l with
  | some m => rw [if_pos (show (some m).isSome = true from rfl)]; simp [h]
  | none => rw [if_neg (by simp), dget_dset_self]; simp

theorem dget_dsetdefault_ne {α : Type} {k k' : String} (h : k' ≠ k) (v₀ : α)
    (l : List (String × α)) : dget k (dsetdefault k' v₀ l) = dget k l := by
  unfold dsetdefault
  split_ifs
  · rfl
  · exact dget_dset_ne h v₀ l

theorem dget_map_const {α : Type} (v₀ : α) (keys : List String) (p : String) (m : α)
    (h : dget p (keys.map (fun k => (k, v₀))) = some m) : m = v₀ := by
  induction keys with
  | nil => simp [dget] at h
  | cons a rest ih =>
    rw [List.map_cons, dget] at h
    by_cases ha : a = p
    · rw [if_pos ha] at h
      exact (Option.some.injEq _ _ ▸ h).symm
    · rw [if_neg ha] at h
      exact ih h

theorem dget2_of_getD {α : Type} (p t : String) (pp : List (String × List (String × α))) :
    dget t ((dget p pp).getD []) = dget2 p t pp := by
  unfold dget2
  cases h : dget p pp <;> simp [dget]

theorem dget3_of_getD {α : Type} (p t s : String)
    (pp : List (String × List (String × List (String × α)))) :
    dget2 t s ((dget p pp).getD []) = dget3 p t s pp := by
  unfold dget3
  cases h : dget p pp <;> simp [dget2, dget]

theorem byTypeStep_raw (st : TypeCountsResult) (i : Issue) :
    (byTypeStep st i).raw = st.raw + 1 := by
  simp only [byTypeStep]
  split_ifs <;> rfl

theorem byTypeStep_after (st : TypeCountsResult) (i : Issue) :
    (byTypeStep st i).after_exclude = st.after_exclude + (if keptIssue i then 1 else 0) := by
  by_cases h : pyLower (pyStrip (typeOfIssue i)) ∈ EXCLUDED_TYPES
  · have hk : keptIssue i = false := by simp [keptIssue, h]
    simp only [byTypeStep]
    rw [if_pos h, hk]
    simp
  · have hk : keptIssue i = true := by simp [keptIssue, h]
    simp only [byTypeStep]
    rw [if_neg h, hk]
    split_ifs <;> simp_all

theorem byTypeStep_overall (st : TypeCountsResult) (i : Issue) (t : String) :
    dget t (byTypeStep st i).overall =
      if countedBT t i then some ((dget t st.overall).getD 0 + 1) else dget t st.overall := by
  by_cases hex : pyLower (pyStrip (typeOfIssue i)) ∈ EXCLUDED_TYPES
  · have hc : countedBT t i = false := by simp [countedBT, keptIssue, hex]
    simp only [byTypeStep]
    rw [if_pos hex, hc]
    simp
  · have hkept : keptIssue i = true := by simp [keptIssue, hex]
    by_cases hp : projOfIssue i = ""
    · have hc : countedBT t i = false := by simp [countedBT, hp]
      simp only [byTypeStep]
      rw [if_neg hex, if_pos hp, hc]
      simp
    · by_cases ht : typeOfIssue i = t
      · subst ht
        have hc : countedBT (typeOfIssue i) i = true := by simp [countedBT, hkept, hp]
        simp only [byTypeStep]
        rw [if_neg hex, if_neg hp, hc, if_pos rfl, dget_dset_self]
      · have hc : countedBT t i = false := by simp [countedBT, ht]
        simp only [byTypeStep]
        rw [if_neg hex, if_neg hp, hc, if_neg (by simp), dget_dset_ne ht]

theorem dget2_dset_self1 {α : Type} (p t : String) (v : List (String × α))
    (l : List (String × List (String × α))) : dget2 p t (dset p v l) = dget t v := by
  unfold dget2
  rw [dget_dset_self]

theorem dget2_dset_ne1 {α : Type} {p q : String} (h : q ≠ p) (t : String) (v : List (String × α))
    (l : List (String × List (String × α))) : dget2 p t (dset q v l) = dget2 p t l := by
  unfold dget2
  rw [dget_dset_ne h]

theorem dget2_dsetdefault_ne1 {α : Type} {p q : String} (h : q ≠ p) (t : String)
    (v : List (String × α)) (l : List (String × List (String × α))) :
    dget2 p t (dsetdefault q v l) = dget2 p t l := by
  unfold dget2
  rw [dget_dsetdefault_ne h]

theorem byTypeStep_pp (st : TypeCountsResult) (i : Issue) (p t : String) :
    dget2 p t (byTypeStep st i).per_project =
      if countedBTP p t i then some ((dget2 p t st.per_project).getD 0 + 1)
      else dget2 p t st.per_project := by
  by_cases hex : pyLower (pyStrip (typeOfIssue i)) ∈ EXCLUDED_TYPES
  · have hc : countedBTP p t i = false := by simp [countedBTP, keptIssue, hex]
    simp only [byTypeStep]
    rw [if_pos hex, hc]
    simp
  · have hkept : keptIssue i = true := by simp [keptIssue, hex]
    by_cases hp : projOfIssue i = ""
    · have hc : countedBTP p t i = false := by simp [countedBTP, hp]
      simp only [byTypeStep]
      rw [if_neg hex, if_pos hp, hc]
      simp
    · by_cases hpp : projOfIssue i = p
      · subst hpp
        by_cases ht : typeOfIssue i = t
        · subst ht
          have hc : countedBTP (projOfIssue i) (typeOfIssue i) i = true := by
            simp [countedBTP, hkept, hp]
          simp only [byTypeStep]
          rw [if_neg hex, if_neg hp, hc, if_pos rfl, dget2_dset_self1, dget_dset_self,
            dget_dsetdefault_self]
          simp only [Option.getD_some]
          rw [dget2_of_getD]
        · have hc : countedBTP (projOfIssue i) t i = false := by simp [countedBTP, ht]
          simp only [byTypeStep]
          rw [if_neg hex, if_neg hp, hc, if_neg (by simp), dget2_dset_self1,
            dget_dset_ne ht, dget_dsetdefault_self]
          simp only [Option.getD_some]
          rw [dget2_of_getD]
      · have hc : countedBTP p t i = false := by simp [countedBTP, hpp]
        simp only [byTypeStep]
        rw [if_neg hex, if_neg hp, hc, if_neg (by simp), dget2_dset_ne1 hpp,
          dget2_dsetdefault_ne1 hpp]

theorem fold_add_lemma {σ ι : Type} (f : σ → ι → σ) (g : σ → Nat) (q : ι → Bool)
    (hstep : ∀ st i, g (f st i) = g st + (if q i then 1 else 0)) (issues : List ι) :
    ∀ st, g (issues.foldl f st) = g st + issues.countP q := by
  induction issues with
  | nil => intro st; simp
  | cons i rest ih =>
    intro st
    rw [List.foldl_cons, ih, hstep, List.countP_cons]
    cases hb : q i <;> simp [hb] <;> omega

theorem fold_count_lemma {σ ι : Type} (f : σ → ι → σ) (g : σ → Option Nat) (q : ι → Bool)
    (hstep : ∀ st i, g (f st i) = if q i then some ((g st).getD 0 + 1) else g st)
    (issues : List ι) : ∀ st, g (issues.foldl f st) =
      match g st with
      | some n => some (n + issues.countP q)
      | none => if issues.countP q = 0 then none else some (issues.countP q) := by
  induction issues with
  | nil => intro st; cases h : g st <;> simp [h]
  | cons i rest ih =>
    intro st
    rw [List.foldl_cons, ih, hstep, List.countP_cons]
    cases hb : q i
    · simp only [hb, Bool.false_eq_true, if_false]
      cases h : g st <;> simp [h]
    · simp only [hb]
      cases h : g st <;> simp [h] <;> omega

theorem fold_none_lemma {σ ι β : Type} (f : σ → ι → σ) (g : σ → Option β) (issues : List ι)
    (hstep : ∀ st i, g st = none → g (f st i) = none) :
    ∀ st, g st = none → g (issues.foldl f st) = none := by
  induction issues with
  | nil => intro st h; exact h
  | cons i rest ih =>
    intro st h
    rw [List.foldl_cons]
    exact ih (f st i) (hstep st i h)

theorem dget_seed {α : Type} (t : String) (h : dget t
    (ACTIVE_PROJECTS.map (fun p => (p, ([] : List (String × α))))) ≠ none) :
    dget t (ACTIVE_PROJECTS.map (fun p => (p, ([] : List (String × α))))) = some [] := by
  cases hx : dget t (ACTIVE_PROJECTS.map (fun p => (p, ([] : List (String × α))))) with
  | none => exact absurd hx h
  | some m => rw [dget_map_const _ _ _ _ hx]

theorem dget2_seed {α : Type} (p t : String) :
    dget2 p t (ACTIVE_PROJECTS.map (fun p => (p, ([] : List (String × α))))) = none := by
  unfold dget2
  cases hx : dget p (ACTIVE_PROJECTS.map (fun p => (p, ([] : List (String × α))))) with
  | none => rfl
  | some m => rw [dget_map_const _ _ _ _ hx]; rfl

theorem dget3_seed {α : Type} (p t s : String) :
    dget3 p t s (ACTIVE_PROJECTS.map
      (fun p => (p, ([] : List (String × List (String × α)))))) = none := by
  unfold dget3
  cases hx : dget p (ACTIVE_PROJECTS.map
      (fun p => (p, ([] : List (String × List (String × α)))))) with
  | none => rfl
  | some m => rw [dget_map_const _ _ _ _ hx]; rfl

theorem byTypeStateStep_raw (st : TypeStateCountsResult) (i : Issue) :
    (byTypeStateStep st i).raw = st.raw + 1 := by
  simp only [byTypeStateStep]
  split_ifs <;> rfl

theorem byTypeStateStep_after (st : TypeStateCountsResult) (i : Issue) :
    (byTypeStateStep st i).after_exclude =
      st.after_exclude + (if keptCountedTS i then 1 else 0) := by
  by_cases hex : pyLower (pyStrip (typeOfIssue i)) ∈ EXCLUDED_TYPES
  · have hk : keptCountedTS i = false := by simp [keptCountedTS, keptIssue, hex]
    simp only [byTypeStateStep]
    rw [if_pos hex, hk]
    simp
  · have hkept : keptIssue i = true := by simp [keptIssue, hex]
    by_cases hp : projOfIssue i = ""
    · have hk : keptCountedTS i = false := by simp [keptCountedTS, hp]
      simp only [byTypeStateStep]
      rw [if_neg hex, if_pos hp, hk]
      simp
    · have hk : keptCountedTS i = true := by simp [keptCountedTS, hkept, hp]
      simp only [byTypeStateStep]
      rw [if_neg hex, if_neg hp, hk]
      simp

theorem byTypeStateStep_overall (st : TypeStateCountsResult) (i : Issue) (t s : String) :
    dget2 t s (byTypeStateStep st i).overall =
      if countedTS t s i then some ((dget2 t s st.overall).getD 0 + 1)
      else dget2 t s st.overall := by
  by_cases hex : pyLower (pyStrip (typeOfIssue i)) ∈ EXCLUDED_TYPES
  · have hc : countedTS t s i = false := by simp [countedTS, keptCountedTS, keptIssue, hex]
    simp only [byTypeStateStep]
    rw [if_pos hex, hc]
    simp
  · have hkept : keptIssue i = true := by simp [keptIssue, hex]
    by_cases hp : projOfIssue i = ""
    · have hc : countedTS t s i = false := by simp [countedTS, keptCountedTS, hp]
      simp only [byTypeStateStep]
      rw [if_neg hex, if_pos hp, hc]
      simp
    · have hk : keptCountedTS i = true := by simp [keptCountedTS, hkept, hp]
      by_cases ht : typeOfIssue i = t
      · subst ht
        by_cases hs : stateOfIssue i = s
        · subst hs
          have hc : countedTS (typeOfIssue i) (stateOfIssue i) i = true := by
            simp [countedTS, hk]
          simp only [byTypeStateStep]
          rw [if_neg hex, if_neg hp, hc, if_pos rfl, dget2_dset_self1, dget_dset_self,
            dget_dsetdefault_self]
          simp only [Option.getD_some]
          rw [dget2_of_getD]
        · have hc : countedTS (typeOfIssue i) s i = false := by simp [countedTS, hs]
          simp only [byTypeStateStep]
          rw [if_neg hex, if_neg hp, hc, if_neg (by simp), dget2_dset_self1,
            dget_dset_ne hs, dget_dsetdefault_self]
          simp only [Option.getD_some]
          rw [dget2_of_getD]
      · have hc : countedTS t s i = false := by simp [countedTS, ht]
        simp only [byTypeStateStep]
        rw [if_neg hex, if_neg hp, hc, if_neg (by simp), dget2_dset_ne1 ht,
          dget2_dsetdefault_ne1 ht]

theorem dget3_dset_self1 {α : Type} (p t s : String) (v : List (String × List (String × α)))
    (l : List (String × List (String × List (String × α)))) :
    dget3 p t s (dset p v l) = dget2 t s v := by
  unfold dget3
  rw [dget_dset_self]

theorem dget3_dset_ne1 {α : Type} {p q : String} (h : q ≠ p) (t s : String)
    (v : List (String × List (String × α)))
    (l : List (String × List (String × List (String × α)))) :
    dget3 p t s (dset q v l) = dget3 p t s l := by
  unfold dget3
  rw [dget_dset_ne h]

theorem dget3_dsetdefault_ne1 {α : Type} {p q : String} (h : q ≠ p) (t s : String)
    (v : List (String × List (String × α)))
    (l : List (String × List (String × List (String × α)))) :
    dget3 p t s (dsetdefault q v l) = dget3 p t s l := by
  unfold dget3
  rw [dget_dsetdefault_ne h]

theorem byTypeStateStep_pp (st : TypeStateCountsResult) (i : Issue) (p t s : String) :
    dget3 p t s (byTypeStateStep st i).per_project =
      if countedTSP p t s i then some ((dget3 p t s st.per_project).getD 0 + 1)
      else dget3 p t s st.per_project := by
  by_cases hex : pyLower (pyStrip (typeOfIssue i)) ∈ EXCLUDED_TYPES
  · have hc : countedTSP p t s i = false := by
      simp [countedTSP, countedTS, keptCountedTS, keptIssue, hex]
    simp only [byTypeStateStep]
    rw [if_pos hex, hc]
    simp
  · have hkept : keptIssue i = true := by simp [keptIssue, hex]
    by_cases hp : projOfIssue i = ""
    · have hc : countedTSP p t s i = false := by
        simp [countedTSP, countedTS, keptCountedTS, hp]
      simp only [byTypeStateStep]
      rw [if_neg hex, if_pos hp, hc]
      simp
    · have hk : keptCountedTS i = true := by simp [keptCountedTS, hkept, hp]
      by_cases hpp : projOfIssue i = p
      · subst hpp
        by_cases ht : typeOfIssue i = t
        · subst ht
          by_cases hs : stateOfIssue i = s
          · subst hs
            have hc : countedTSP (projOfIssue i) (typeOfIssue i) (stateOfIssue i) i = true := by
              simp [countedTSP, countedTS, hk]
            simp only [byTypeStateStep]
            rw [if_neg hex, if_neg hp, hc, if_pos rfl, dget3_dset_self1, dget2_dset_self1,
              dget_dset_self, dget_dsetdefault_self]
            simp only [Option.getD_some]
            rw [dget_dsetdefault_self]
            simp only [Option.getD_some]
            rw [dget2_of_getD, dget3_of_getD]
          · have hc : countedTSP (projOfIssue i) (typeOfIssue i) s i = false := by
              simp [countedTSP, countedTS, hs]
            simp only [byTypeStateStep]
            rw [if_neg hex, if_neg hp, hc, if_neg (by simp), dget3_dset_self1,
              dget2_dset_self1, dget_dset_ne hs, dget_dsetdefault_self]
            simp only [Option.getD_some]
            rw [dget_dsetdefault_self]
            simp only [Option.getD_some]
            rw [dget2_of_getD, dget3_of_getD]
        · have hc : countedTSP (projOfIssue i) t s i = false := by
            simp [countedTSP, countedTS, ht]
          simp only [byTypeStateStep]
          rw [if_neg hex, if_neg hp, hc, if_neg (by simp), dget3_dset_self1,
            dget2_dset_ne1 ht, dget2_dsetdefault_ne1 ht, dget_dsetdefault_self]
          simp only [Option.getD_some]
          rw [dget3_of_getD]
      · have hc : countedTSP p t s i = false := by simp [countedTSP, hpp]
        simp only [byTypeStateStep]
        rw [if_neg hex, if_neg hp, hc, if_neg (by simp), dget3_dset_ne1 hpp,
          dget3_dsetdefault_ne1 hpp]

theorem countedBT_false_of_excluded (t : String)
    (hexcl : pyLower (pyStrip t) ∈ EXCLUDED_TYPES) (i : Issue) : countedBT t i = false := by
  by_cases h : typeOfIssue i = t
  · simp [countedBT, keptIssue, h, hexcl]
  · simp [countedBT, h]

theorem countedBTP_false_of_excluded (p t : String)
    (hexcl : pyLower (pyStrip t) ∈ EXCLUDED_TYPES) (i : Issue) : countedBTP p t i = false := by
  by_cases h : typeOfIssue i = t
  · simp [countedBTP, keptIssue, h, hexcl]
  · simp [countedBTP, h]

theorem countedTS_false_of_excluded (t s : String)
    (hexcl : pyLower (pyStrip t) ∈ EXCLUDED_TYPES) (i : Issue) : countedTS t s i = false := by
  by_cases h : typeOfIssue i = t
  · simp [countedTS, keptCountedTS, keptIssue, h, hexcl]
  · simp [countedTS, h]

theorem byTypeStateStep_overall_type_none (st : TypeStateCountsResult) (i : Issue) (t : String)
    (hexcl : pyLower (pyStrip t) ∈ EXCLUDED_TYPES)
    (h : dget t st.overall = none) : dget t (byTypeStateStep st i).overall = none := by
  by_cases hex : pyLower (pyStrip (typeOfIssue i)) ∈ EXCLUDED_TYPES
  · simp only [byTypeStateStep]
    rw [if_pos hex]
    exact h
  · by_cases hp : projOfIssue i = ""
    · simp only [byTypeStateStep]
      rw [if_neg hex, if_pos hp]
      exact h
    · have hT : typeOfIssue i ≠ t := fun heq => hex (heq ▸ hexcl)
      simp only [byTypeStateStep]
      rw [if_neg hex, if_neg hp]
      dsimp only
      rw [dget_dset_ne hT, dget_dsetdefault_ne hT]
      exact h

theorem byTypeStateStep_pp_type_none (st : TypeStateCountsResult) (i : Issue) (t : String)
    (hexcl : pyLower (pyStrip t) ∈ EXCLUDED_TYPES)
    (h : ∀ p m, dget p st.per_project = some m → dget t m = none) :
    ∀ p m, dget p (byTypeStateStep st i).per_project = some m → dget t m = none := by
  intro p m hm
  by_cases hex : pyLower (pyStrip (typeOfIssue i)) ∈ EXCLUDED_TYPES
  · simp only [byTypeStateStep] at hm
    rw [if_pos hex] at hm
    exact h p m hm
  · by_cases hp : projOfIssue i = ""
    · simp only [byTypeStateStep] at hm
      rw [if_neg hex, if_pos hp] at hm
      exact h p m hm
    · have hT : typeOfIssue i ≠ t := fun heq => hex (heq ▸ hexcl)
      simp only [byTypeStateStep] at hm
      rw [if_neg hex, if_neg hp] at hm
      dsimp only at hm
      by_cases hpP : projOfIssue i = p
      · rw [hpP, dget_dset_self] at hm
        have hm' := (Option.some.injEq _ _).mp hm
        subst hm'
        rw [dget_dset_ne hT, dget_dsetdefault_ne hT, dget_dsetdefault_self]
        simp only [Option.getD_some]
        cases hq : dget p st.per_project with
        | none => simp [dget]
        | some mm => simpa using h p mm hq
      · rw [dget_dset_ne hpP, dget_dsetdefault_ne hpP] at hm
        exact h p m hm

theorem byTypeStep_pp_type_none (st : TypeCountsResult) (i : Issue) (t : String)
    (hexcl : pyLower (pyStrip t) ∈ EXCLUDED_TYPES)
    (h : ∀ p m, dget p st.per_project = some m → dget t m = none) :
    ∀ p m, dget p (byTypeStep st i).per_project = some m → dget t m = none := by
  intro p m hm
  by_cases hex : pyLower (pyStrip (typeOfIssue i)) ∈ EXCLUDED_TYPES
  · simp only [byTypeStep] at hm
    rw [if_pos hex] at hm
    exact h p m hm
  · by_cases hp : projOfIssue i = ""
    · simp only [byTypeStep] at hm
      rw [if_neg hex, if_pos hp] at hm
      exact h p m hm
    · have hT : typeOfIssue i ≠ t := fun heq => hex (heq ▸ hexcl)
      simp only [byTypeStep] at hm
      rw [if_neg hex, if_neg hp] at hm
      dsimp only at hm
      by_cases hpP : projOfIssue i = p
      · rw [hpP, dget_dset_self] at hm
        have hm' := (Option.some.injEq _ _).mp hm
        subst hm'
        rw [dget_dset_ne hT, dget_dsetdefault_self]
        simp only [Option.getD_some]
        cases hq : dget p st.per_project with
        | none => simp [dget]
        | some mm => simpa using h p mm hq
      · rw [dget_dset_ne hpP, dget_dsetdefault_ne hpP] at hm
        exact h p m hm

theorem sum1_dset_some {k : String} {m : List (String × Nat)} {w : Nat} (v : Nat)
    (h : dget k m = some w) : sum1 (dset k v m) + w = sum1 m + v := by
  induction m with
  | nil => simp [dget] at h
  | cons kv rest ih =>
    obtain ⟨a, b⟩ := kv
    rw [dget] at h
    rw [dset]
    by_cases ha : a = k
    · rw [if_pos ha] at h ⊢
      have hb : b = w := by simpa using h
      subst hb
      simp [sum1]
      omega
    · rw [if_neg ha] at h ⊢
      have := ih h
      simp only [sum1, List.map_cons, List.sum_cons] at this ⊢
      omega

theorem sum1_dset_none {k : String} {m : List (String × Nat)} (v : Nat)
    (h : dget k m = none) : sum1 (dset k v m) = sum1 m + v := by
  induction m with
  | nil => simp [dset, sum1]
  | cons kv rest ih =>
    obtain ⟨a, b⟩ := kv
    rw [dget] at h
    rw [dset]
    by_cases ha : a = k
    · rw [if_pos ha] at h; simp at h
    · rw [if_neg ha] at h
      rw [if_neg ha]
      have := ih h
      simp only [sum1, List.map_cons, List.sum_cons] at this ⊢
      omega

theorem sum1_inc (k : String) (m : List (String × Nat)) :
    sum1 (dset k ((dget k m).getD 0 + 1) m) = sum1 m + 1 := by
  cases h : dget k m with
  | none => rw [sum1_dset_none _ h]; simp [h]
  | some w =>
    have h2 := sum1_dset_some ((dget k m).getD 0 + 1) h
    rw [h] at h2
    simp only [Option.getD_some] at h2 ⊢
    omega

theorem sum2_dset_some {p : String} {pp : List (String × List (String × Nat))}
    {m : List (String × Nat)} (v : List (String × Nat))
    (h : dget p pp = some m) : sum2 (dset p v pp) + sum1 m = sum2 pp + sum1 v := by
  induction pp with
  | nil => simp [dget] at h
  | cons kv rest ih =>
    obtain ⟨a, b⟩ := kv
    rw [dget] at h
    rw [dset]
    by_cases ha : a = p
    · rw [if_pos ha] at h ⊢
      have hb : b = m := by simpa using h
      subst hb
      simp [sum2]
      omega
    · rw [if_neg ha] at h ⊢
      have := ih h
      simp only [sum2, List.map_cons, List.sum_cons] at this ⊢
      omega

theorem sum2_dset_none {p : String} {pp : List (String × List (String × Nat))}
    (v : List (String × Nat)) (h : dget p pp = none) :
    sum2 (dset p v pp) = sum2 pp + sum1 v := by
  induction pp with
  | nil => simp [dset, sum2]
  | cons kv rest ih =>
    obtain ⟨a, b⟩ := kv
    rw [dget] at h
    rw [dset]
    by_cases ha : a = p
    · rw [if_pos ha] at h; simp at h
    · rw [if_neg ha] at h
      rw [if_neg ha]
      have := ih h
      simp only [sum2, List.map_cons, List.sum_cons] at this ⊢
      omega

theorem sum2_dsetdefault (p : String) (pp : List (String × List (String × Nat))) :
    sum2 (dsetdefault p [] pp) = sum2 pp := by
  unfold dsetdefault
  cases h : dget p pp with
  | some m => rw [if_pos (show (some m).isSome = true from rfl)]
  | none =>
    rw [if_neg (by simp), sum2_dset_none _ h]
    simp [sum1]

theorem sum3_dset_some {p : String} {pp : List (String × List (String × List (String × Nat)))}
    {m : List (String × List (String × Nat))} (v : List (String × List (String × Nat)))
    (h : dget p pp = some m) : sum3 (dset p v pp) + sum2 m = sum3 pp + sum2 v := by
  induction pp with
  | nil => simp [dget] at h
  | cons kv rest ih =>
    obtain ⟨a, b⟩ := kv
    rw [dget] at h
    rw [dset]
    by_cases ha : a = p
    · rw [if_pos ha] at h ⊢
      have hb : b = m := by simpa using h
      subst hb
      simp [sum3]
      omega
    · rw [if_neg ha] at h ⊢
      have := ih h
      simp only [sum3, List.map_cons, List.sum_cons] at this ⊢
      omega

theorem sum3_dset_none {p : String} {pp : List (String × List (String × List (String × Nat)))}
    (v : List (String × List (String × Nat))) (h : dget p pp = none) :
    sum3 (dset p v pp) = sum3 pp + sum2 v := by
  induction pp with
  | nil => simp [dset, sum3, sum2]
  | cons kv rest ih =>
    obtain ⟨a, b⟩ := kv
    rw [dget] at h
    rw [dset]
    by_cases ha : a = p
    · rw [if_pos ha] at h; simp at h
    · rw [if_neg ha] at h
      rw [if_neg ha]
      have := ih h
      simp only [sum3, List.map_cons, List.sum_cons] at this ⊢
      omega

theorem sum3_dsetdefault (p : String) (pp : List (String × List (String × List (String × Nat)))) :
    sum3 (dsetdefault p [] pp) = sum3 pp := by
  unfold dsetdefault
  cases h : dget p pp with
  | some m => rw [if_pos (show (some m).isSome = true from rfl)]
  | none =>
    rw [if_neg (by simp), sum3_dset_none _ h]
    simp [sum2]

theorem byTypeStateStep_sum2 (st : TypeStateCountsResult) (i : Issue) :
    sum2 (byTypeStateStep st i).overall =
      sum2 st.overall + (if keptCountedTS i then 1 else 0) := by
  by_cases hex : pyLower (pyStrip (typeOfIssue i)) ∈ EXCLUDED_TYPES
  · have hk : keptCountedTS i = false := by simp [keptCountedTS, keptIssue, hex]
    simp only [byTypeStateStep]
    rw [if_pos hex, hk]
    simp
  · have hkept : keptIssue i = true := by simp [keptIssue, hex]
    by_cases hp : projOfIssue i = ""
    · have hk : keptCountedTS i = false := by simp [keptCountedTS, hp]
      simp only [byTypeStateStep]
      rw [if_neg hex, if_pos hp, hk]
      simp
    · have hk : keptCountedTS i = true := by simp [keptCountedTS, hkept, hp]
      have hone : (if keptCountedTS i then 1 else 0) = 1 := by rw [hk]; rfl
      have hov : dget (typeOfIssue i) (dsetdefault (typeOfIssue i) [] st.overall) =
          some ((dget (typeOfIssue i) st.overall).getD []) := dget_dsetdefault_self _ _ _
      simp only [byTypeStateStep]
      rw [if_neg hex, if_neg hp, hone]
      dsimp only
      rw [hov]
      simp only [Option.getD_some]
      have h1 := sum2_dset_some (dset (stateOfIssue i)
        ((dget (stateOfIssue i) ((dget (typeOfIssue i) st.overall).getD [])).getD 0 + 1)
        ((dget (typeOfIssue i) st.overall).getD [])) hov
      rw [sum2_dsetdefault] at h1
      have h2 := sum1_inc (stateOfIssue i) ((dget (typeOfIssue i) st.overall).getD [])
      omega

theorem byTypeStateStep_sum3 (st : TypeStateCountsResult) (i : Issue) :
    sum3 (byTypeStateStep st i).per_project =
      sum3 st.per_project + (if keptCountedTS i then 1 else 0) := by
  by_cases hex : pyLower (pyStrip (typeOfIssue i)) ∈ EXCLUDED_TYPES
  · have hk : keptCountedTS i = false := by simp [keptCountedTS, keptIssue, hex]
    simp only [byTypeStateStep]
    rw [if_pos hex, hk]
    simp
  · have hkept : keptIssue i = true := by simp [keptIssue, hex]
    by_cases hp : projOfIssue i = ""
    · have hk : keptCountedTS i = false := by simp [keptCountedTS, hp]
      simp only [byTypeStateStep]
      rw [if_neg hex, if_pos hp, hk]
      simp
    · have hk : keptCountedTS i = true := by simp [keptCountedTS, hkept, hp]
      have hone : (if keptCountedTS i then 1 else 0) = 1 := by rw [hk]; rfl
      have hov1 : dget (projOfIssue i) (dsetdefault (projOfIssue i) [] st.per_project) =
          some ((dget (projOfIssue i) st.per_project).getD []) := dget_dsetdefault_self _ _ _
      have hov2 : dget (typeOfIssue i) (dsetdefault (typeOfIssue i) []
            ((dget (projOfIssue i) st.per_project).getD [])) =
          some ((dget (typeOfIssue i)
            ((dget (projOfIssue i) st.per_project).getD [])).getD []) :=
        dget_dsetdefault_self _ _ _
      simp only [byTypeStateStep]
      rw [if_neg hex, if_neg hp, hone]
      dsimp only
      rw [hov1]
      simp only [Option.getD_some]
      rw [hov2]
      simp only [Option.getD_some]
      have h1 := sum3_dset_some (dset (typeOfIssue i)
        (dset (stateOfIssue i)
          ((dget (stateOfIssue i) ((dget (typeOfIssue i)
            ((dget (projOfIssue i) st.per_project).getD [])).getD [])).getD 0 + 1)
          ((dget (typeOfIssue i) ((dget (projOfIssue i) st.per_project).getD [])).getD []))
        (dsetdefault (typeOfIssue i) [] ((dget (projOfIssue i) st.per_project).getD []))) hov1
      rw [sum3_dsetdefault] at h1
      have h2 := sum2_dset_some (dset (stateOfIssue i)
        ((dget (stateOfIssue i) ((dget (typeOfIssue i)
          ((dget (projOfIssue i) st.per_project).getD [])).getD [])).getD 0 + 1)
        ((dget (typeOfIssue i) ((dget (projOfIssue i) st.per_project).getD [])).getD [])) hov2
      rw [sum2_dsetdefault] at h2
      have h3 := sum1_inc (stateOfIssue i)
        ((dget (typeOfIssue i) ((dget (projOfIssue i) st.per_project).getD [])).getD [])
      omega

theorem sum3_map_nil (keys : List String) :
    sum3 (keys.map (fun k => (k, ([] : List (String × List (String × Nat)))))) = 0 := by
  induction keys with
  | nil => rfl
  | cons a rest ih =>
    simp only [List.map_cons, sum3, List.sum_cons] at ih ⊢
    simpa [sum2] using ih

/-- C10: for every stream of issues, the type-and-state aggregation keeps its
`after_exclude` diagnostic equal to the sum of all leaf counts of the
`overall` tree and to the sum of all leaf counts across `per_project`: an
issue with a missing or empty project short name is skipped before being
counted as kept, so kept issues and counted issues coincide. -/
theorem C10_after_exclude_eq_leaf_sums (yt_query : String) (issues : List Issue) :
    (type_state_agg yt_query issues).after_exclude =
      sum2 (type_state_agg yt_query issues).overall ∧
    (type_state_agg yt_query issues).after_exclude =
      sum3 (type_state_agg yt_query issues).per_project := by
  unfold type_state_agg
  rw [fold_add_lemma byTypeStateStep (fun st => st.after_exclude) keptCountedTS
      byTypeStateStep_after issues,
    fold_add_lemma byTypeStateStep (fun st => sum2 st.overall) keptCountedTS
      byTypeStateStep_sum2 issues,
    fold_add_lemma byTypeStateStep (fun st => sum3 st.per_project) keptCountedTS
      byTypeStateStep_sum3 issues]
  dsimp only
  rw [sum3_map_nil]
  constructor
  · rfl
  · rfl

theorem ts_pp_type_none_fold (t : String) (hexcl : pyLower (pyStrip t) ∈ EXCLUDED_TYPES)
    (issues : List Issue) : ∀ st : TypeStateCountsResult,
    (∀ p m, dget p st.per_project = some m → dget t m = none) →
    ∀ p m, dget p (issues.foldl byTypeStateStep st).per_project = some m → dget t m = none := by
  induction issues with
  | nil => intro st h; exact h
  | cons i rest ih =>
    intro st h
    rw [List.foldl_cons]
    exact ih (byTypeStateStep st i) (byTypeStateStep_pp_type_none st i t hexcl h)

theorem seed_inner_none {α : Type} (t : String) :
    ∀ p m, dget p (ACTIVE_PROJECTS.map (fun p => (p, ([] : List (String × α))))) = some m →
      dget t m = none := by
  intro p m hm
  rw [dget_map_const _ _ _ _ hm]
  rfl

/-- C2 (counterexample): the claim says the diagnostic pair counts every
non-excluded issue in `after_exclude`, but the type-and-state aggregation
skips issues with an empty project short name before incrementing
`after_exclude`: a stream of one non-excluded `Bug` issue without a project
yields `after_exclude = 0` while the stream contains one non-excluded issue. -/
theorem C2_aggregation_counts_counterexample :
    (type_state_agg "" [issueNoProj "Bug"]).after_exclude = 0 ∧
    [issueNoProj "Bug"].countP keptIssue = 1 := by
  constructor
  · decide
  · decide

/-- C2 (amended): for every stream of issues, an issue whose normalized
extracted type is in the exclusion set appears in no bucket of either count
tree; every leaf count equals the number of non-excluded issues with a
nonempty project short name observed with that exact key path; both
aggregations count every fetched issue in `raw`; the by-type aggregation
counts every non-excluded issue in `after_exclude` while the type-and-state
aggregation counts only non-excluded issues with a nonempty project short
name; and the concrete instance (one excluded `Deployment`, two `Bug`s)
yields no `Deployment` bucket, a `Bug` total of 2, raw 3 and kept 2. -/
theorem C2_aggregation_counts :
    (∀ (yt_query : String) (issues : List Issue),
      (by_type_agg yt_query issues).raw = issues.length ∧
      (by_type_agg yt_query issues).after_exclude = issues.countP keptIssue ∧
      (∀ t n, dget t (by_type_agg yt_query issues).overall = some n →
        n = issues.countP (countedBT t)) ∧
      (∀ p m t n, dget p (by_type_agg yt_query issues).per_project = some m →
        dget t m = some n → n = issues.countP (countedBTP p t)) ∧
      (∀ t, pyLower (pyStrip t) ∈ EXCLUDED_TYPES →
        dget t (by_type_agg yt_query issues).overall = none ∧
        ∀ p m, dget p (by_type_agg yt_query issues).per_project = some m →
          dget t m = none) ∧
      (type_state_agg yt_query issues).raw = issues.length ∧
      (type_state_agg yt_query issues).after_exclude = issues.countP keptCountedTS ∧
      (∀ t m s n, dget t (type_state_agg yt_query issues).overall = some m →
        dget s m = some n → n = issues.countP (countedTS t s)) ∧
      (∀ p m t m2 s n, dget p (type_state_agg yt_query issues).per_project = some m →
        dget t m = some m2 → dget s m2 = some n → n = issues.countP (countedTSP p t s)) ∧
      (∀ t, pyLower (pyStrip t) ∈ EXCLUDED_TYPES →
        dget t (type_state_agg yt_query issues).overall = none ∧
        ∀ p m, dget p (type_state_agg yt_query issues).per_project = some m →
          dget t m = none)) ∧
    (∃ res, get_task_counts_by_type "current_month" ⟨2025, 8, 15⟩
        [issueOfType "Bug" "APLUS", issueOfType "Bug" "APLUS",
         issueOfType "Deployment" "APLUS"] = .ok res ∧
      dget "Deployment" res.overall = none ∧ dget "Bug" res.overall = some 2 ∧
      res.raw = 3 ∧ res.after_exclude = 2) := by
  constructor
  · intro yt_query issues
    refine ⟨?_, ?_, ?_, ?_, ?_, ?_, ?_, ?_, ?_, ?_⟩
    · unfold by_type_agg
      rw [fold_add_lemma byTypeStep (fun st => st.raw) (fun _ => true)
        (fun st i => by simp [byTypeStep_raw]) issues]
      simp
    · unfold by_type_agg
      rw [fold_add_lemma byTypeStep (fun st => st.after_exclude) keptIssue
        byTypeStep_after issues]
      simp
    · intro t n hn
      unfold by_type_agg at hn
      rw [fold_count_lemma byTypeStep (fun st => dget t st.overall) (countedBT t)
        (fun st i => byTypeStep_overall st i t) issues] at hn
      simp only [dget] at hn
      by_cases hz : issues.countP (countedBT t) = 0
      · rw [if_pos hz] at hn
        exact absurd hn (by simp)
      · rw [if_neg hz] at hn
        have hinj := Option.some.inj hn
        omega
    · intro p m t n hm hn
      have h2 : dget2 p t (by_type_agg yt_query issues).per_project = some n := by
        unfold dget2
        rw [hm]
        exact hn
      unfold by_type_agg at h2
      rw [fold_count_lemma byTypeStep (fun st => dget2 p t st.per_project) (countedBTP p t)
        (fun st i => byTypeStep_pp st i p t) issues] at h2
      simp only [dget2_seed] at h2
      by_cases hz : issues.countP (countedBTP p t) = 0
      · rw [if_pos hz] at h2
        exact absurd h2 (by simp)
      · rw [if_neg hz] at h2
        have hinj := Option.some.inj h2
        omega
    · intro t hexcl
      constructor
      · have hz : issues.countP (countedBT t) = 0 :=
          List.countP_eq_zero.mpr (fun i _ => by simp [countedBT_false_of_excluded t hexcl i])
        unfold by_type_agg
        rw [fold_count_lemma byTypeStep (fun st => dget t st.overall) (countedBT t)
          (fun st i => byTypeStep_overall st i t) issues]
        simp only [dget, hz]
        rfl
      · intro p m hm
        have hz : issues.countP (countedBTP p t) = 0 :=
          List.countP_eq_zero.mpr
            (fun i _ => by simp [countedBTP_false_of_excluded p t hexcl i])
        have h2 : dget2 p t (by_type_agg yt_query issues).per_project = none := by
          unfold by_type_agg
          rw [fold_count_lemma byTypeStep (fun st => dget2 p t st.per_project) (countedBTP p t)
            (fun st i => byTypeStep_pp st i p t) issues]
          simp only [dget2_seed, hz]
          rfl
        unfold dget2 at h2
        rw [hm] at h2
        exact h2
    · unfold type_state_agg
      rw [fold_add_lemma byTypeStateStep (fun st => st.raw) (fun _ => true)
        (fun st i => by simp [byTypeStateStep_raw]) issues]
      simp
    · unfold type_state_agg
      rw [fold_add_lemma byTypeStateStep (fun st => st.after_exclude) keptCountedTS
        byTypeStateStep_after issues]
      simp
    · intro t m s n hm hn
      have h2 : dget2 t s (type_state_agg yt_query issues).overall = some n := by
        unfold dget2
        rw [hm]
        exact hn
      unfold type_state_agg at h2
      rw [fold_count_lemma byTypeStateStep (fun st => dget2 t s st.overall) (countedTS t s)
        (fun st i => byTypeStateStep_overall st i t s) issues] at h2
      simp only [dget2, dget] at h2
      by_cases hz : issues.countP (countedTS t s) = 0
      · rw [if_pos hz] at h2
        exact absurd h2 (by simp)
      · rw [if_neg hz] at h2
        have hinj := Option.some.inj h2
        omega
    · intro p m t m2 s n hm hm2 hn
      have h3 : dget3 p t s (type_state_agg yt_query issues).per_project = some n := by
        unfold dget3 dget2
        rw [hm]
        dsimp only
        rw [hm2]
        exact hn
      unfold type_state_agg at h3
      rw [fold_count_lemma byTypeStateStep (fun st => dget3 p t s st.per_project)
        (countedTSP p t s) (fun st i => byTypeStateStep_pp st i p t s) issues] at h3
      simp only [dget3_seed] at h3
      by_cases hz : issues.countP (countedTSP p t s) = 0
      · rw [if_pos hz] at h3
        exact absurd h3 (by simp)
      · rw [if_neg hz] at h3
        have hinj := Option.some.inj h3
        omega
    · intro t hexcl
      constructor
      · unfold type_state_agg
        apply fold_none_lemma byTypeStateStep (fun st => dget t st.overall) issues
          (fun st i h => byTypeStateStep_overall_type_none st i t hexcl h)
        rfl
      · unfold type_state_agg
        exact ts_pp_type_none_fold t hexcl issues _ (seed_inner_none t)
  · refine ⟨_, rfl, ?_, ?_, ?_, ?_⟩
    · decide
    · decide
    · decide
    · decide

/-- Witness for C2 (amended) at a concrete one-issue stream, discharging the
leaf-count and exclusion hypotheses. -/
theorem C2_aggregation_counts_witness :
    (dget "Bug" (by_type_agg "q" [issueOfType "Bug" "APLUS"]).overall = some 1 ∧
      1 = [issueOfType "Bug" "APLUS"].countP (countedBT "Bug")) ∧
    (pyLower (pyStrip "Deployment") ∈ EXCLUDED_TYPES ∧
      dget "Deployment" (by_type_agg "q" [issueOfType "Bug" "APLUS"]).overall = none) :=
  ⟨⟨by decide,
    (C2_aggregation_counts.1 "q" [issueOfType "Bug" "APLUS"]).2.2.1 "Bug" 1 (by decide)⟩,
   ⟨by decide,
    ((C2_aggregation_counts.1 "q" [issueOfType "Bug" "APLUS"]).2.2.2.2.1 "Deployment"
      (by decide)).1⟩⟩

theorem pyOrStr_some_empty (x : String) : pyOrStr (some x) "" = x := by
  unfold pyOrStr
  dsimp only
  split_ifs with h
  · exact h.symm
  · rfl

theorem extractType_name_invariant (f : String → String)
    (hf : ∀ x, pyLower (pyStrip (f x)) = pyLower (pyStrip x)) :
    ∀ cfs : List CustomField,
      extractTypeFromCFs (cfs.map (fun cf => { cf with name := cf.name.map f })) =
        extractTypeFromCFs cfs := by
  intro cfs
  induction cfs with
  | nil => rfl
  | cons cf rest ih =>
    obtain ⟨nm, v⟩ := cf
    cases nm with
    | none =>
      simp only [List.map_cons]
      rw [show Option.map f (none : Option String) = none from rfl]
      simp only [extractTypeFromCFs]
      rw [ih]
    | some s =>
      simp only [List.map_cons]
      rw [show Option.map f (some s) = some (f s) from rfl]
      simp only [extractTypeFromCFs]
      rw [pyOrStr_some_empty, pyOrStr_some_empty, hf s, ih]

theorem extractState_name_invariant (f : String → String)
    (hf : ∀ x, pyLower (pyStrip (f x)) = pyLower (pyStrip x)) :
    ∀ cfs : List CustomField,
      extractStateFromCFs (cfs.map (fun cf => { cf with name := cf.name.map f })) =
        extractStateFromCFs cfs := by
  intro cfs
  induction cfs with
  | nil => rfl
  | cons cf rest ih =>
    obtain ⟨nm, v⟩ := cf
    cases nm with
    | none =>
      simp only [List.map_cons]
      rw [show Option.map f (none : Option String) = none from rfl]
      simp only [extractStateFromCFs]
      rw [ih]
    | some s =>
      simp only [List.map_cons]
      rw [show Option.map f (some s) = some (f s) from rfl]
      simp only [extractStateFromCFs]
      rw [pyOrStr_some_empty, pyOrStr_some_empty, hf s, ih]

/-- C8: extracting the Type or State attribute is total over every shape of
`customFields` list (the embedding is a total function, modelling that the
Python extractors never raise); matching is case-insensitive with the
`Type`/`Issue Type`/`issuetype` aliases (the result depends on field names
only through strip-plus-lower normalization, and a field whose normalized
name matches an alias decides the result); a missing or valueless field
yields the absent sentinel `none`, never an empty display name; and callers
map the absent sentinel to the `"Unspecified"` bucket. -/
theorem C8_extractors_never_raise :
    (extractTypeFromCFs [] = none ∧ extractStateFromCFs [] = none) ∧
    (∀ (f : String → String),
      (∀ x, pyLower (pyStrip (f x)) = pyLower (pyStrip x)) →
      ∀ cfs : List CustomField,
        extractTypeFromCFs (cfs.map (fun cf => { cf with name := cf.name.map f })) =
          extractTypeFromCFs cfs ∧
        extractStateFromCFs (cfs.map (fun cf => { cf with name := cf.name.map f })) =
          extractStateFromCFs cfs) ∧
    (∀ (nm : String) (v : CFValue) (rest : List CustomField),
      pyLower (pyStrip nm) ∈ TYPE_FIELD_ALIASES →
      extractTypeFromCFs (⟨some nm, v⟩ :: rest) = dictDisplayName v) ∧
    (∀ (nm : String) (v : CFValue) (rest : List CustomField),
      pyLower (pyStrip nm) ∉ TYPE_FIELD_ALIASES →
      extractTypeFromCFs (⟨some nm, v⟩ :: rest) = extractTypeFromCFs rest) ∧
    (∀ (nm : String) (v : CFValue) (rest : List CustomField),
      pyLower (pyStrip nm) = "state" →
      extractStateFromCFs (⟨some nm, v⟩ :: rest) = dictDisplayName v) ∧
    (∀ (nm : String) (v : CFValue) (rest : List CustomField),
      pyLower (pyStrip nm) ≠ "state" →
      extractStateFromCFs (⟨some nm, v⟩ :: rest) = extractStateFromCFs rest) ∧
    (∀ cfs : List CustomField, extractTypeFromCFs cfs = none ∨
      ∃ s, extractTypeFromCFs cfs = some s ∧ s ≠ "") ∧
    (dictDisplayName .vnone = none ∧ ∀ k, dictDisplayName (.vnum k) = none) ∧
    typeOfIssue ⟨none, none, none, []⟩ = "Unspecified" ∧
    dget "Unspecified" (by_type_agg "" [⟨none, some ⟨some "APLUS"⟩, none, []⟩]).overall =
      some 1 := by
  refine ⟨⟨rfl, rfl⟩, ?_, ?_, ?_, ?_, ?_, ?_, ⟨rfl, fun k => rfl⟩, rfl, by decide⟩
  · intro f hf cfs
    exact ⟨extractType_name_invariant f hf cfs, extractState_name_invariant f hf cfs⟩
  · intro nm v rest hmem
    simp only [extractTypeFromCFs]
    rw [pyOrStr_some_empty, if_pos hmem]
  · intro nm v rest hmem
    simp only [extractTypeFromCFs]
    rw [pyOrStr_some_empty, if_neg hmem]
  · intro nm v rest hmem
    simp only [extractStateFromCFs]
    rw [pyOrStr_some_empty, if_pos hmem]
  · intro nm v rest hmem
    simp only [extractStateFromCFs]
    rw [pyOrStr_some_empty, if_neg hmem]
  · intro cfs
    induction cfs with
    | nil => exact Or.inl rfl
    | cons cf rest ih =>
      simp only [extractTypeFromCFs]
      by_cases h : pyLower (pyStrip (pyOrStr cf.name "")) ∈ TYPE_FIELD_ALIASES
      · rw [if_pos h]
        cases v : cf.value with
        | vdict n ln d =>
          simp only [dictDisplayName]
          by_cases hs : pyStrip (pyOrStr n (pyOrStr ln "")) = ""
          · rw [if_pos hs]; exact Or.inl rfl
          · rw [if_neg hs]; exact Or.inr ⟨_, rfl, hs⟩
        | vnone => exact Or.inl rfl
        | vnum k => exact Or.inl rfl
        | vstr s => exact Or.inl rfl
      · rw [if_neg h]
        exact ih

/-- Witness for C8 at a concrete aliased field name and the identity renaming. -/
theorem C8_extractors_never_raise_witness :
    (pyLower (pyStrip " Issue TYPE ") ∈ TYPE_FIELD_ALIASES ∧
      extractTypeFromCFs [CustomField.mk (some " Issue TYPE ")
          (.vdict (some "Bug") none none)] =
        dictDisplayName (.vdict (some "Bug") none none)) ∧
    extractTypeFromCFs
        ([CustomField.mk (some "Type") .vnone].map
          (fun cf => { cf with name := cf.name.map (fun x => x) })) =
      extractTypeFromCFs [CustomField.mk (some "Type") .vnone] :=
  ⟨⟨by decide,
    C8_extractors_never_raise.2.2.1 " Issue TYPE " (.vdict (some "Bug") none none) []
      (by decide)⟩,
   ((C8_extractors_never_raise.2.1 (fun x => x) (fun x => rfl))
      [CustomField.mk (some "Type") .vnone]).1⟩

/-- Witness for C7 at the concrete unknown key `bogus` and a valid key. -/
theorem C7_unknown_period_key_witness :
    ("bogus" ∉ PERIOD_KEYS ∧
      (get_period_range "bogus" ⟨2025, 1, 1⟩ = .error (periodErrorMsg "bogus") ∧
       ("bogus" : String).data <:+: (periodErrorMsg "bogus").data ∧
       ∀ v ∈ PERIOD_KEYS, v.data <:+: (periodErrorMsg "bogus").data)) ∧
    ("current_month" ∈ PERIOD_KEYS ∧
      ∃ p, get_period_range "current_month" ⟨2025, 1, 1⟩ = .ok p) :=
  ⟨⟨by decide, C7_unknown_period_key.1 "bogus" ⟨2025, 1, 1⟩ (by decide)⟩,
   ⟨by decide, C7_unknown_period_key.2 "current_month" ⟨2025, 1, 1⟩ (by decide)⟩⟩

theorem list_append_cancel_left {α : Type} :
    ∀ (a b c : List α), a ++ b = a ++ c → b = c := by
  intro a
  induction a with
  | nil => intro b c h; exact h
  | cons x xs ih =>
    intro b c h
    simp only [List.cons_append, List.cons.injEq] at h
    exact ih b c h.2

theorem pad2_inj_12 {m m' : Int} (h1 : 1 ≤ m) (h2 : m ≤ 12) (h1' : 1 ≤ m') (h2' : m' ≤ 12)
    (heq : natPad 2 m.toNat = natPad 2 m'.toNat) : m = m' := by
  interval_cases m <;> interval_cases m' <;> first | rfl | (exfalso; revert heq; decide)

theorem monthKey_data (y m : Int) :
    (monthKey y m).data = (toString y).data ++ '-' :: natPad 2 m.toNat := by
  have h1 : ((⟨natPad 2 m.toNat⟩ : String)).data = natPad 2 m.toNat := rfl
  simp [monthKey, string_data_append, h1]

theorem monthKey_inj (y : Int) {m m' : Int} (h1 : 1 ≤ m) (h2 : m ≤ 12) (h1' : 1 ≤ m')
    (h2' : m' ≤ 12) (heq : monthKey y m = monthKey y m') : m = m' := by
  have hd : (monthKey y m).data = (monthKey y m').data := by rw [heq]
  rw [monthKey_data, monthKey_data] at hd
  have h3 := list_append_cancel_left _ _ _ hd
  simp only [List.cons.injEq] at h3
  exact pad2_inj_12 h1 h2 h1' h2' h3.2

theorem dget_foldl_dset_not_mem {α : Type} (key : Int → String) (val : Int → α) :
    ∀ (months : List Int) (acc : List (String × α)) (k : String),
      k ∉ months.map key →
      dget k (months.foldl (fun acc m => dset (key m) (val m) acc) acc) = dget k acc := by
  intro months
  induction months with
  | nil => intro acc k _; rfl
  | cons m0 rest ih =>
    intro acc k hk
    simp only [List.map_cons, List.mem_cons, not_or] at hk
    rw [List.foldl_cons, ih (dset (key m0) (val m0) acc) k hk.2,
      dget_dset_ne (fun h => hk.1 h.symm)]

theorem dget_foldl_dset_mem {α : Type} (key : Int → String) (val : Int → α) :
    ∀ (months : List Int) (acc : List (String × α)) (m : Int), m ∈ months →
      (months.map key).Nodup →
      dget (key m) (months.foldl (fun acc m => dset (key m) (val m) acc) acc) =
        some (val m) := by
  intro months
  induction months with
  | nil => intro acc m hm; simp at hm
  | cons m0 rest ih =>
    intro acc m hm hnd
    simp only [List.map_cons, List.nodup_cons] at hnd
    rw [List.foldl_cons]
    rcases List.mem_cons.mp hm with rfl | hm'
    · rw [dget_foldl_dset_not_mem key val rest _ _ hnd.1, dget_dset_self]
    · exact ih (dset (key m0) (val m0) acc) m hm' hnd.2

theorem dget_keyed_map {α : Type} (f : String → α) :
    ∀ (keys : List String) (k : String), k ∈ keys →
      dget k (keys.map (fun k => (k, f k))) = some (f k) := by
  intro keys
  induction keys with
  | nil => intro k hk; simp at hk
  | cons a rest ih =>
    intro k hk
    rw [List.map_cons, dget]
    by_cases ha : a = k
    · rw [if_pos ha, ha]
    · rw [if_neg ha]
      exact ih k (by rcases List.mem_cons.mp hk with h | h; exact absurd h.symm ha; exact h)

theorem monthKeys_nodup (year : Int) (cm : Int) (hcm : cm ≤ 12) :
    (((List.range cm.toNat).map (fun i : Nat => (i : Int) + 1)).map
      (fun m => monthKey year m)).Nodup := by
  rw [List.map_map]
  refine List.Nodup.map_on ?_ (List.nodup_range cm.toNat)
  intro x hx y hy hxy
  simp only [List.mem_range] at hx hy
  simp only [Function.comp] at hxy
  have hx1 : 1 ≤ (x : Int) + 1 := by omega
  have hx2 : (x : Int) + 1 ≤ 12 := by omega
  have hy1 : 1 ≤ (y : Int) + 1 := by omega
  have hy2 : (y : Int) + 1 ≤ 12 := by omega
  have h12 : (x : Int) + 1 = (y : Int) + 1 := monthKey_inj year hx1 hx2 hy1 hy2 hxy
  omega

/-- C6: for every target year, nonempty project, valid reference date and
fetch oracle, the monthly aggregation returns a mapping whose key list is
exactly the months 01 through M of that year in order, with
M = today's month when the year is the current year and 12 otherwise; every
month key is present and maps to that month's per-type bucket, so a month
with zero matching issues is present mapping to the empty bucket, never
omitted. -/
theorem C6_monthly_keys_contiguous (project : String) (year : Int) (today : PyDate)
    (fetch : String → List Issue) (hp : project ≠ "") (hv : ValidDate today) :
    (get_monthly_task_counts_by_type project year today fetch).map Prod.fst =
      (List.range (if year = today.year then today.month else 12).toNat).map
        (fun i : Nat => monthKey year ((i : Int) + 1)) ∧
    (get_monthly_task_counts_by_type project year today fetch).length =
      (if year = today.year then today.month else 12).toNat ∧
    (∀ m : Int, 1 ≤ m → m ≤ (if year = today.year then today.month else 12) →
      dget (monthKey year m) (get_monthly_task_counts_by_type project year today fetch) =
        some (monthPerType (fetch (monthQuery project year m)))) ∧
    (∀ m : Int, 1 ≤ m → m ≤ (if year = today.year then today.month else 12) →
      monthPerType (fetch (monthQuery project year m)) = [] →
      dget (monthKey year m) (get_monthly_task_counts_by_type project year today fetch) =
        some []) := by
  have hcm : (if year = today.year then today.month else 12) ≤ 12 := by
    obtain ⟨-, -, h12, -⟩ := hv
    split_ifs <;> omega
  have hmain : ∀ m : Int, 1 ≤ m → m ≤ (if year = today.year then today.month else 12) →
      dget (monthKey year m) (get_monthly_task_counts_by_type project year today fetch) =
        some (monthPerType (fetch (monthQuery project year m))) := by
    intro m hm1 hm2
    unfold get_monthly_task_counts_by_type
    rw [if_neg hp]
    dsimp only
    generalize hg : (if year = today.year then today.month else 12) = cmv at hm2 ⊢
    rw [hg] at hcm
    have hmem : m ∈ (List.range cmv.toNat).map (fun i : Nat => (i : Int) + 1) := by
      simp only [List.mem_map, List.mem_range]
      refine ⟨(m - 1).toNat, by omega, by omega⟩
    rw [dget_keyed_map _ _ _ (List.mem_map_of_mem _ hmem)]
    rw [dget_foldl_dset_mem (fun m => monthKey year m)
      (fun m => monthPerType (fetch (monthQuery project year m))) _ [] m hmem
      (monthKeys_nodup year _ hcm)]
    rfl
  refine ⟨?_, ?_, hmain, ?_⟩
  · unfold get_monthly_task_counts_by_type
    rw [if_neg hp]
    dsimp only
    simp [List.map_map, Function.comp]
  · unfold get_monthly_task_counts_by_type
    rw [if_neg hp]
    dsimp only
    simp
  · intro m hm1 hm2 hz
    rw [hmain m hm1 hm2, hz]

/-- Witness for C6 at project `APLUS`, year 2025, reference date 2025-03-15
and an empty fetch oracle. -/
theorem C6_monthly_keys_contiguous_witness :
    ("APLUS" ≠ "" ∧ ValidDate ⟨2025, 3, 15⟩) ∧
    (get_monthly_task_counts_by_type "APLUS" 2025 ⟨2025, 3, 15⟩ (fun _ => [])).map Prod.fst =
      (List.range (if (2025 : Int) = (2025 : Int) then (3 : Int) else 12).toNat).map
        (fun i : Nat => monthKey 2025 ((i : Int) + 1)) :=
  ⟨⟨by decide, by decide⟩,
   (C6_monthly_keys_contiguous "APLUS" 2025 ⟨2025, 3, 15⟩ (fun _ => [])
     (by decide) (by decide)).1⟩

theorem iter_paged_spec {α : Type} [DecidableEq α] (get : Nat → List α) (ps : Nat)
    (hps : 0 < ps) :
    ∀ (n skip fuel : Nat),
      (∀ i, i < n → ps ≤ (get (skip + i * ps)).length) →
      (get (skip + n * ps)).length < ps →
      n < fuel →
      iter_paged get ps fuel skip =
        ((List.range (n + 1)).map (fun i => skip + i * ps),
         ((List.range (n + 1)).map (fun i => get (skip + i * ps))).flatten) := by
  intro n
  induction n with
  | zero =>
    intro skip fuel hfull hlast hfuel
    obtain ⟨f, rfl⟩ : ∃ f, fuel = f + 1 := ⟨fuel - 1, by omega⟩
    rw [iter_paged]
    dsimp only
    have hr1 : List.range 1 = [0] := rfl
    by_cases hb : get skip = []
    · rw [if_pos hb]
      simp [hb, hr1]
    · rw [if_neg hb, if_pos (by simpa using hlast)]
      simp [hr1]
  | succ n ih =>
    intro skip fuel hfull hlast hfuel
    obtain ⟨f, rfl⟩ : ∃ f, fuel = f + 1 := ⟨fuel - 1, by omega⟩
    rw [iter_paged]
    dsimp only
    have h0 : ps ≤ (get skip).length := by simpa using hfull 0 (by omega)
    rw [if_neg (by intro h; rw [h] at h0; simp at h0; omega), if_neg (by omega)]
    have hfull' : ∀ i, i < n → ps ≤ (get (skip + ps + i * ps)).length := by
      intro i hi
      have h1 := hfull (i + 1) (by omega)
      have harith : skip + (i + 1) * ps = skip + ps + i * ps := by
        rw [Nat.succ_mul]
        omega
      rwa [harith] at h1
    have hlast' : (get (skip + ps + n * ps)).length < ps := by
      have harith : skip + (n + 1) * ps = skip + ps + n * ps := by
        rw [Nat.succ_mul]
        omega
      rwa [harith] at hlast
    rw [ih (skip + ps) f hfull' hlast' (by omega)]
    have hoff : (List.range (n + 1 + 1)).map (fun i => skip + i * ps) =
        skip :: (List.range (n + 1)).map (fun i => skip + ps + i * ps) := by
      rw [List.range_succ_eq_map, List.map_cons, List.map_map]
      refine congrArg₂ _ (by simp) ?_
      refine List.map_congr_left ?_
      intro i _
      simp only [Function.comp]
      rw [Nat.succ_mul]
      omega
    have hjoin : ((List.range (n + 1 + 1)).map (fun i => get (skip + i * ps))).flatten =
        get skip ++ ((List.range (n + 1)).map (fun i => get (skip + ps + i * ps))).flatten := by
      rw [List.range_succ_eq_map, List.map_cons, List.map_map, List.flatten]
      refine congrArg₂ _ (by simp) ?_
      refine congrArg _ ?_
      refine List.map_congr_left ?_
      intro i _
      simp only [Function.comp]
      rw [Nat.succ_mul]
      refine congrArg _ ?_
      omega
    rw [hoff, hjoin]

/-- C5: for every query oracle, the issue fetchers request pages at offsets
`0, page_size, 2*page_size, ...` in strictly increasing order, stop at the
first response that is empty or contains fewer than `page_size` records, and
yield exactly the concatenation of the fetched batches in order — with a
fixed oracle (the underlying data does not change between page fetches), no
record is skipped or duplicated.  `n` is the index of the first short or
empty page and `fuel > n` bounds the loop. -/
theorem C5_pagination_exact {α : Type} [DecidableEq α] (get : Nat → List α)
    (page_size n fuel : Nat)
    (hps : 0 < page_size)
    (hfull : ∀ i, i < n → page_size ≤ (get (i * page_size)).length)
    (hlast : (get (n * page_size)).length < page_size)
    (hfuel : n < fuel) :
    (iter_paged get page_size fuel 0).1 =
      (List.range (n + 1)).map (fun i => i * page_size) ∧
    (iter_paged get page_size fuel 0).1.Pairwise (· < ·) ∧
    iter_issues_minimal get page_size fuel =
      ((List.range (n + 1)).map (fun i => get (i * page_size))).flatten ∧
    iter_issues_with_fields get page_size fuel =
      ((List.range (n + 1)).map (fun i => get (i * page_size))).flatten := by
  have hmain := iter_paged_spec get page_size hps n 0 fuel
    (by intro i hi; simpa using hfull i hi) (by simpa using hlast) hfuel
  have hz : ∀ i : Nat, 0 + i * page_size = i * page_size := by intro i; omega
  refine ⟨?_, ?_, ?_, ?_⟩
  · rw [hmain]
    refine List.map_congr_left ?_
    intro i _
    omega
  · rw [hmain]
    rw [List.pairwise_map]
    refine List.Pairwise.imp ?_ (List.pairwise_lt_range (n + 1))
    intro a b h
    have := Nat.mul_lt_mul_of_pos_right h hps
    omega
  · unfold iter_issues_minimal
    rw [hmain]
    refine congrArg _ (List.map_congr_left ?_)
    intro i _
    refine congrArg _ ?_
    omega
  · unfold iter_issues_with_fields
    rw [hmain]
    refine congrArg _ (List.map_congr_left ?_)
    intro i _
    refine congrArg _ ?_
    omega

/-- Witness for C5 at a two-page oracle with page size 2. -/
theorem C5_pagination_exact_witness :
    (0 < 2 ∧ (∀ i, i < 1 → 2 ≤ ((fun k => if k = 0 then [10, 11] else
        if k = 2 then [12] else ([] : List Nat)) (i * 2)).length) ∧
      ((fun k => if k = 0 then [10, 11] else if k = 2 then [12] else
        ([] : List Nat)) (1 * 2)).length < 2 ∧ 1 < 3) ∧
    iter_issues_minimal (fun k => if k = 0 then [10, 11] else
        if k = 2 then [12] else ([] : List Nat)) 2 3 =
      ((List.range 2).map (fun i => (fun k => if k = 0 then [10, 11] else
        if k = 2 then [12] else ([] : List Nat)) (i * 2))).flatten :=
  ⟨⟨by decide, by decide, by decide, by decide⟩,
   (C5_pagination_exact (fun k => if k = 0 then [10, 11] else
      if k = 2 then [12] else ([] : List Nat)) 2 1 3
      (by decide) (by decide) (by decide) (by decide)).2.2.1⟩

theorem processLinkEntry_cases (lookup : String → Except Unit LinkedIssuePayload)
    (st : CollectSt) (li : LinkedIssuePayload) :
    processLinkEntry lookup st li = (st, 0) ∨
    ∃ r : LinkedTaskRecord, r.id ∉ st.seen_ids ∧
      processLinkEntry lookup st li =
        ({ st with
            seen_ids := st.seen_ids ++ [r.id],
            linked_out := st.linked_out ++ [r] }, 1) := by
  unfold processLinkEntry
  by_cases h1 : is_valid_issue_key (resolveEntryVals lookup li).1
  · by_cases h2 : (resolveEntryVals lookup li).1 ∈ st.seen_ids
    · left; simp [h1, h2]
    · right
      refine ⟨⟨(resolveEntryVals lookup li).1, (resolveEntryVals lookup li).2.1,
        pyOrStr (some (resolveEntryVals lookup li).2.2.1) "Unspecified",
        pyOrStr (some (resolveEntryVals lookup li).2.2.2.1) "Unspecified",
        (resolveEntryVals lookup li).2.2.2.2.1,
        (resolveEntryVals lookup li).2.2.2.2.2⟩, h2, ?_⟩
      simp [h1, h2]
  · left; simp [h1]

theorem CollectInv_processLinkEntry (lookup : String → Except Unit LinkedIssuePayload)
    (st : CollectSt) (li : LinkedIssuePayload) (h : CollectInv st) :
    CollectInv (processLinkEntry lookup st li).1 := by
  rcases processLinkEntry_cases lookup st li with heq | ⟨r, hnot, heq⟩
  · rw [heq]; exact h
  · rw [heq]
    dsimp only [CollectInv] at h ⊢
    constructor
    · intro x hx
      rcases List.mem_append.mp hx with hx | hx
      · exact List.mem_append.mpr (Or.inl (h.1 x hx))
      · simp only [List.mem_singleton] at hx
        subst hx
        simp
    · rw [List.map_append]
      refine List.Nodup.append h.2 (by simp) ?_
      intro a ha hb
      simp only [List.map_cons, List.map_nil, List.mem_singleton] at hb
      subst hb
      obtain ⟨x, hx, hxid⟩ := List.mem_map.mp ha
      exact hnot (hxid ▸ h.1 x hx)

theorem CollectInv_entryFold (lookup : String → Except Unit LinkedIssuePayload)
    (issues : List LinkedIssuePayload) :
    ∀ acc : CollectSt × Nat, CollectInv acc.1 →
      CollectInv ((issues.foldl (entryStep lookup) acc)).1 := by
  induction issues with
  | nil => intro acc h; exact h
  | cons li rest ih =>
    intro acc h
    exact ih _ (CollectInv_processLinkEntry lookup acc.1 li h)

theorem CollectInv_collectLinkStep (lookup : String → Except Unit LinkedIssuePayload)
    (allowed : Option (List String)) (acc : CollectSt × Nat) (link : Link)
    (h : CollectInv acc.1) : CollectInv ((collectLinkStep lookup allowed acc link)).1 := by
  unfold collectLinkStep
  dsimp only
  have hst1 : CollectInv { acc.1 with
      seen_link_types :=
        addSeenType (pyStrip (pyOrStr link.linkTypeName "")) acc.1.seen_link_types } := h
  cases allowed with
  | none =>
    dsimp only
    exact CollectInv_entryFold lookup _ _ hst1
  | some al =>
    dsimp only
    by_cases hm : pyLower (pyStrip (pyOrStr link.linkTypeName "")) ∈ al
    · rw [if_pos hm]
      exact CollectInv_entryFold lookup _ _ hst1
    · rw [if_neg hm]
      exact hst1

theorem CollectInv_collectFold (lookup : String → Except Unit LinkedIssuePayload)
    (allowed : Option (List String)) (links : List Link) :
    ∀ acc : CollectSt × Nat, CollectInv acc.1 →
      CollectInv ((links.foldl (collectLinkStep lookup allowed) acc)).1 := by
  induction links with
  | nil => intro acc h; exact h
  | cons link rest ih =>
    intro acc h
    exact ih _ (CollectInv_collectLinkStep lookup allowed acc link h)

theorem CollectInv_collect_links_into (lookup : String → Except Unit LinkedIssuePayload)
    (allowed : Option (List String)) (links : List Link) (st : CollectSt)
    (h : CollectInv st) : CollectInv (collect_links_into lookup allowed links st).1 :=
  CollectInv_collectFold lookup allowed links (st, 0) h

theorem processDeployment_nodup (lookup : String → Except Unit LinkedIssuePayload)
    (fallbackLinks : String → Except Unit (List Link)) (allowed : Option (List String))
    (seenTypes : List String) (dep : DepPayload) :
    (((processDeployment lookup fallbackLinks allowed seenTypes dep).1.linked).map
      LinkedTaskRecord.id).Nodup := by
  have h0 : CollectInv (⟨seenTypes, [], []⟩ : CollectSt) := by
    constructor
    · intro r hr; simp at hr
    · simp [CollectInv]
  have h1 := CollectInv_collect_links_into lookup allowed (dep.links.getD [])
    ⟨seenTypes, [], []⟩ h0
  unfold processDeployment
  dsimp only
  split_ifs with hc
  · cases hfl : fallbackLinks (pyOrStr dep.id "") with
    | ok dls =>
      exact (CollectInv_collect_links_into lookup allowed dls _ h1).2
    | error e =>
      exact h1.2
  · exact h1.2

theorem depFold_rows_nodup (lookup : String → Except Unit LinkedIssuePayload)
    (fallbackLinks : String → Except Unit (List Link)) (allowed : Option (List String))
    (deps : List DepPayload) :
    ∀ acc : List DeploymentRow × List String,
      (∀ row ∈ acc.1, ((row.linked).map LinkedTaskRecord.id).Nodup) →
      ∀ row ∈ ((deps.foldl (depFoldStep lookup fallbackLinks allowed) acc)).1,
        ((row.linked).map LinkedTaskRecord.id).Nodup := by
  induction deps with
  | nil => intro acc h row hrow; exact h row hrow
  | cons dep rest ih =>
    intro acc h
    refine ih _ ?_
    intro row hrow
    dsimp only [depFoldStep] at hrow
    rcases List.mem_append.mp hrow with h1 | h1
    · exact h row h1
    · simp only [List.mem_singleton] at h1
      subst h1
      exact processDeployment_nodup lookup fallbackLinks allowed acc.2 dep

/-- C3: in every deployment row of a successful `get_deployments_on_live`
result, the resolved linked-task list contains no two entries with the same
final readable identifier — a task reached twice (via different link types,
or via the inline payload and again via the fallback endpoint) appears
exactly once in that deployment's row. -/
theorem C3_link_dedup (project period_key : String) (link_types : Option (List String))
    (discover_link_types : Bool) (today : PyDate) (deps : List DepPayload)
    (fallbackLinks : String → Except Unit (List Link))
    (lookup : String → Except Unit LinkedIssuePayload) (res : DeploymentsResult)
    (hres : get_deployments_on_live project period_key link_types discover_link_types
      today deps fallbackLinks lookup = .ok res) :
    ∀ row ∈ res.deployments, ((row.linked).map LinkedTaskRecord.id).Nodup := by
  unfold get_deployments_on_live at hres
  by_cases hp : project = ""
  · rw [if_pos hp] at hres
    have hXr := Except.ok.inj hres
    subst hXr
    intro row hrow
    simp at hrow
  · rw [if_neg hp] at hres
    cases hflt : get_field_period_filter "due date" period_key today with
    | error e =>
      rw [hflt] at hres
      exact absurd hres (by simp)
    | ok due_clause =>
      rw [hflt] at hres
      dsimp only at hres
      have hXr := Except.ok.inj hres
      subst hXr
      intro row hrow
      dsimp only at hrow
      exact depFold_rows_nodup lookup fallbackLinks _ deps ([], [])
        (by intro r hr; simp at hr) row hrow

theorem C3_link_dedup_witness :
    ∃ res, get_deployments_on_live "AP" "current_month" none false ⟨2025, 8, 15⟩ [dupDep]
        (fun _ => .error ()) (fun _ => .error ()) = .ok res ∧
      ∀ row ∈ res.deployments, ((row.linked).map LinkedTaskRecord.id).Nodup := by
  refine ⟨_, rfl, ?_⟩
  exact C3_link_dedup "AP" "current_month" none false ⟨2025, 8, 15⟩ [dupDep]
    (fun _ => .error ()) (fun _ => .error ()) _ rfl

theorem resolveEntryVals_err_key (lookup : String → Except Unit LinkedIssuePayload)
    (li : LinkedIssuePayload)
    (hbad : is_valid_issue_key (pyStrip (pyOrStr li.idReadable "")) = false)
    (herr : lookup (entry_issue_key li) = .error ()) :
    (resolveEntryVals lookup li).1 = pyStrip (pyOrStr li.idReadable "") := by
  unfold resolveEntryVals
  dsimp only
  rw [if_pos (Or.inl (by simp [hbad])), herr]

theorem depFold_length (lookup : String → Except Unit LinkedIssuePayload)
    (fallbackLinks : String → Except Unit (List Link)) (allowed : Option (List String))
    (deps : List DepPayload) :
    ∀ acc : List DeploymentRow × List String,
      ((deps.foldl (depFoldStep lookup fallbackLinks allowed) acc)).1.length =
        acc.1.length + deps.length := by
  induction deps with
  | nil => intro acc; simp
  | cons dep rest ih =>
    intro acc
    rw [List.foldl_cons, ih]
    dsimp only [depFoldStep]
    rw [List.length_append]
    simp
    omega

theorem get_period_range_isOk (k : String) (today : PyDate) (hk : k ∈ PERIOD_KEYS) :
    ∃ p, get_period_range k today = .ok p := by
  simp only [PERIOD_KEYS, List.mem_cons, List.not_mem_nil, or_false] at hk
  rcases hk with rfl | rfl | rfl | rfl <;> exact ⟨_, rfl⟩

theorem get_field_period_filter_isOk (field k : String) (today : PyDate)
    (hk : k ∈ PERIOD_KEYS) :
    ∃ v, get_field_period_filter field k today = .ok v := by
  obtain ⟨p, hpr⟩ := get_period_range_isOk k today hk
  unfold get_field_period_filter
  rw [hpr]
  exact ⟨_, rfl⟩

/-- C4: link-resolution failures stay local.  (i) A link entry whose readable
identifier is malformed and whose backfill lookup fails is silently dropped:
the collection state is unchanged and nothing is appended.  (ii) A failing
per-deployment fallback links call degrades that deployment's row to the
inline-payload collection result — the row is still produced.  (iii) A
successful run yields exactly one row per fetched deployment, whatever the
two per-issue endpoints return.  (iv) With a recognized period key,
`get_deployments_on_live` always returns a result and never an error,
whatever the two per-issue endpoints return. -/
theorem C4_link_failures_local :
    (∀ (lookup : String → Except Unit LinkedIssuePayload) (st : CollectSt)
        (li : LinkedIssuePayload),
      is_valid_issue_key (pyStrip (pyOrStr li.idReadable "")) = false →
      lookup (entry_issue_key li) = .error () →
      processLinkEntry lookup st li = (st, 0)) ∧
    (∀ (lookup : String → Except Unit LinkedIssuePayload)
        (fallbackLinks : String → Except Unit (List Link)) (allowed : Option (List String))
        (seenTypes : List String) (dep : DepPayload),
      fallbackLinks (pyOrStr dep.id "") = .error () →
      (processDeployment lookup fallbackLinks allowed seenTypes dep).1.linked =
        (collect_links_into lookup allowed (dep.links.getD [])
          ⟨seenTypes, [], []⟩).1.linked_out) ∧
    (∀ (project period_key : String) (link_types : Option (List String))
        (discover_link_types : Bool) (today : PyDate) (deps : List DepPayload)
        (fallbackLinks : String → Except Unit (List Link))
        (lookup : String → Except Unit LinkedIssuePayload) (res : DeploymentsResult),
      get_deployments_on_live project period_key link_types discover_link_types today deps
        fallbackLinks lookup = .ok res →
      project ≠ "" → res.deployments.length = deps.length) ∧
    (∀ (project period_key : String) (link_types : Option (List String))
        (discover_link_types : Bool) (today : PyDate) (deps : List DepPayload)
        (fallbackLinks : String → Except Unit (List Link))
        (lookup : String → Except Unit LinkedIssuePayload),
      period_key ∈ PERIOD_KEYS →
      ∃ res, get_deployments_on_live project period_key link_types discover_link_types today
        deps fallbackLinks lookup = .ok res) := by
  refine ⟨?_, ?_, ?_, ?_⟩
  · intro lookup st li hbad herr
    have hv := resolveEntryVals_err_key lookup li hbad herr
    unfold processLinkEntry
    dsimp only
    rw [hv, hbad]
    simp
  · intro lookup fallbackLinks allowed seenTypes dep herr
    unfold processDeployment
    dsimp only
    split_ifs with hc
    · rw [herr]
    · rfl
  · intro project period_key link_types discover_link_types today deps fallbackLinks
      lookup res hres hp
    unfold get_deployments_on_live at hres
    rw [if_neg hp] at hres
    cases hflt : get_field_period_filter "due date" period_key today with
    | error e =>
      rw [hflt] at hres
      exact absurd hres (by simp)
    | ok due_clause =>
      rw [hflt] at hres
      dsimp only at hres
      have hXr := Except.ok.inj hres
      subst hXr
      dsimp only
      rw [depFold_length]
      simp
  · intro project period_key link_types discover_link_types today deps fallbackLinks
      lookup hk
    by_cases hp : project = ""
    · refine ⟨⟨[], "", 0, none⟩, ?_⟩
      unfold get_deployments_on_live
      rw [if_pos hp]
    · obtain ⟨v, hv⟩ := get_field_period_filter_isOk "due date" period_key today hk
      unfold get_deployments_on_live
      rw [if_neg hp, hv]
      exact ⟨_, rfl⟩

theorem C4_link_failures_local_witness :
    processLinkEntry (fun _ => .error ()) ⟨[], [], []⟩ badLi = (⟨[], [], []⟩, 0) ∧
    (processDeployment (fun _ => .error ()) (fun _ => .error ()) none [] demoDep).1.linked =
      (collect_links_into (fun _ => .error ()) none (demoDep.links.getD [])
        ⟨[], [], []⟩).1.linked_out ∧
    (∃ res, get_deployments_on_live "AP" "current_month" none false ⟨2025, 8, 15⟩ [demoDep]
        (fun _ => .error ()) (fun _ => .error ()) = .ok res ∧
      res.deployments.length = 1) := by
  obtain ⟨h1, h2, h3, h4⟩ := C4_link_failures_local
  refine ⟨h1 (fun _ => .error ()) ⟨[], [], []⟩ badLi (by decide) rfl,
    h2 (fun _ => .error ()) (fun _ => .error ()) none [] demoDep rfl, ?_⟩
  obtain ⟨res, hres⟩ := h4 "AP" "current_month" none false ⟨2025, 8, 15⟩ [demoDep]
    (fun _ => .error ()) (fun _ => .error ()) (by decide)
  exact ⟨res, hres, h3 "AP" "current_month" none false ⟨2025, 8, 15⟩ [demoDep]
    (fun _ => .error ()) (fun _ => .error ()) res hres (by decide)⟩
